import Mathlib

/-!
Verification of the session-aware multi-round tool-execution agent core of the
beyondworks assistant (skills/beyondworks-assistant).  The Python sources
`core/openai_client.py`, `core/session.py`, `core/memory.py`,
`core/ai_provider.py` and `assistant.py` are shallowly embedded below:

* pure functions become Lean functions with the source's names;
* the JSON file stores (sessions, rule memory) become explicit state values
  threaded through the operations;
* `datetime.now()` becomes an explicit `now` parameter (an `Int` counting
  seconds for the session TTL arithmetic, a `String` placeholder where only
  an ISO timestamp text is stored);
* the LLM provider and the per-domain tool executor are arbitrary function
  parameters, matching their "narrow collaborator contract" role;
* fallible operations return `Except String` (the error carries the Python
  exception class name).

Scanning functions that mirror Python `re.sub` passes use an explicit fuel
argument (always instantiated with the input length plus one, which is enough
since every step consumes at least one character); this keeps every
definition structurally recursive and kernel-computable.
-/

namespace Beyondworks

/-! ## Python-value helpers

`PyContent` models the value of the `"content"` key of a provider result
dictionary: the key can be missing, hold `None`, or hold a string.
`Option String` models a Python value that is either a string or `None`.
-/

inductive PyContent where
  | missing
  | pynull
  | str (s : String)

/-- Model of Python `d.get("content", default)`: a missing key yields the
default, a present key yields its value (possibly `None`). -/
def content_get (c : PyContent) (default : String) : Option String :=
  match c with
  | .missing => some default
  | .pynull => none
  | .str s => some s

/-- Model of Python `x or alt` for `x` a string-or-None value: `None` and the
empty string are falsy. -/
def py_or (x : Option String) (alt : String) : String :=
  match x with
  | none => alt
  | some s => if s = "" then alt else s

/-- Model of Python `x or alt` for two plain strings (empty string is falsy). -/
def py_or_str (x : String) (alt : String) : String :=
  if x = "" then alt else x

/-! ## JSON values

Tool-call argument dictionaries are JSON objects; `JValue` is a standard JSON
value and `JObj` an object's field list (Python dicts preserve insertion
order, so an association list is the faithful model).
-/

inductive JValue where
  | null
  | bool (b : Bool)
  | num (n : Int)
  | str (s : String)
  | arr (xs : List JValue)
  | obj (fields : List (String × JValue))

abbrev JObj := List (String × JValue)

/-- Python `d.get(key)` on an object: `none` when the key is missing. -/
def jget (o : JObj) (key : String) : Option JValue :=
  o.lookup key

/-- Python `d.get(key, default)` where the code then uses the value as a
string.  A present non-string value is mapped to the default; Python would
propagate it and fail later, a corner that never occurs for well-formed
model output and that no claim depends on. -/
def jget_str (o : JObj) (key : String) (default : String) : String :=
  match jget o key with
  | some (.str s) => s
  | _ => default

/-- Python `d.get(key, [])` used as a list (same convention as `jget_str`). -/
def jget_arr (o : JObj) (key : String) : List JValue :=
  match jget o key with
  | some (.arr xs) => xs
  | _ => []

/-- Python `d.get(key, {})` used as a dict (same convention as `jget_str`). -/
def jget_obj (o : JObj) (key : String) : JObj :=
  match jget o key with
  | some (.obj fs) => fs
  | _ => []

/-- Python `d[key] = v`: overwrite in place, else append (insertion order). -/
def jset (o : JObj) (key : String) (v : JValue) : JObj :=
  match o with
  | [] => [(key, v)]
  | (k, w) :: rest => if k = key then (k, v) :: rest else (k, w) :: jset rest key v

def hex_digit (n : Nat) : Char :=
  if n < 10 then Char.ofNat (48 + n) else Char.ofNat (87 + n)

/-- JSON string escaping as in Python `json.dumps(..., ensure_ascii=False)`. -/
def json_escape_char (c : Char) : List Char :=
  if c = Char.ofNat 34 then ['\\', Char.ofNat 34]
  else if c = '\\' then ['\\', '\\']
  else if c = '\n' then ['\\', 'n']
  else if c = '\t' then ['\\', 't']
  else if c = '\r' then ['\\', 'r']
  else if c = Char.ofNat 8 then ['\\', 'b']
  else if c = Char.ofNat 12 then ['\\', 'f']
  else if c.toNat < 32 then
    ['\\', 'u', '0', '0', hex_digit (c.toNat / 16), hex_digit (c.toNat % 16)]
  else [c]

def json_quote (s : String) : String :=
  String.mk (Char.ofNat 34 :: (s.data.flatMap json_escape_char ++ [Char.ofNat 34]))

def comma_join (parts : List String) : String :=
  String.intercalate ", " parts

mutual

/-- Python `json.dumps(v, ensure_ascii=False)` (default separators). -/
def json_dumps : JValue → String
  | .null => "null"
  | .bool true => "true"
  | .bool false => "false"
  | .num n => toString n
  | .str s => json_quote s
  | .arr xs => "[" ++ comma_join (json_dumps_arr xs) ++ "]"
  | .obj fs => "\x7b" ++ comma_join (json_dumps_obj fs) ++ "\x7d"

def json_dumps_arr : List JValue → List String
  | [] => []
  | x :: xs => json_dumps x :: json_dumps_arr xs

def json_dumps_obj : List (String × JValue) → List String
  | [] => []
  | (k, v) :: fs => (json_quote k ++ ": " ++ json_dumps v) :: json_dumps_obj fs

end

/-! ## `strip_markdown` (openai_client.py lines 20-45)

Each Python `re.sub` pass becomes a left-to-right scanner on `List Char`,
mirroring `re.sub` semantics (leftmost match, non-greedy where the pattern
is non-greedy, scanning resumes after each match).  The fuel argument is
always called with `length + 1`, which suffices because every step consumes
at least one character.
-/

/-- The backtick character (written via its code point). -/
def btick : Char := Char.ofNat 96

/-- Python `\s` for the ASCII range: space, tab, newline, CR, VT, FF. -/
def is_ws (c : Char) : Bool :=
  c = ' ' ∨ c = '\t' ∨ c = '\n' ∨ c = '\r' ∨ c = Char.ofNat 11 ∨ c = Char.ofNat 12

/-- Scan for the earliest closing triple backtick; returns the text after it. -/
def find_fence_close : List Char → Option (List Char)
  | c1 :: c2 :: c3 :: rest =>
    if c1 = btick ∧ c2 = btick ∧ c3 = btick then some rest
    else find_fence_close (c2 :: c3 :: rest)
  | _ => none

/-- Pass for `re.sub(r'(triple backtick)[\s\S]*?(triple backtick)', '', text)`. -/
def sub_code_blocks : Nat → List Char → List Char
  | 0, l => l
  | _ + 1, [] => []
  | fuel + 1, c :: cs =>
    if c = btick ∧ cs.take 2 = [btick, btick] then
      match find_fence_close (cs.drop 2) with
      | some rest => sub_code_blocks fuel rest
      | none => c :: sub_code_blocks fuel cs
    else c :: sub_code_blocks fuel cs

/-- Scan for the earliest backtick; returns (content before it, text after). -/
def find_tick_close : List Char → Option (List Char × List Char)
  | [] => none
  | c :: cs =>
    if c = btick then some ([], cs)
    else
      match find_tick_close cs with
      | some (content, rest) => some (c :: content, rest)
      | none => none

/-- Pass for inline code: backtick, one or more non-backtick chars, backtick,
replaced by the content. -/
def sub_inline_code : Nat → List Char → List Char
  | 0, l => l
  | _ + 1, [] => []
  | fuel + 1, c :: cs =>
    if c = btick then
      match find_tick_close cs with
      | some (content, rest) =>
        if content = [] then c :: sub_inline_code fuel cs
        else content ++ sub_inline_code fuel rest
      | none => c :: sub_inline_code fuel cs
    else c :: sub_inline_code fuel cs

/-- Scan for the earliest doubled delimiter `dd`, aborting at a newline;
returns (content before it, text after it). -/
def scan_pair_close (d : Char) : List Char → Option (List Char × List Char)
  | [] => none
  | c :: cs =>
    if c = d ∧ cs.take 1 = [d] then some ([], cs.drop 1)
    else if c = '\n' then none
    else
      match scan_pair_close d cs with
      | some (content, rest) => some (c :: content, rest)
      | none => none

/-- Pass for `re.sub(r'\*\*(.+?)\*\*', r'\1', ...)` and the `__` variant:
doubled delimiter, minimal non-empty run of non-newline chars, doubled
delimiter, replaced by the content. -/
def sub_pair (d : Char) : Nat → List Char → List Char
  | 0, l => l
  | _ + 1, [] => []
  | fuel + 1, c :: cs =>
    if c = d ∧ cs.take 1 = [d] then
      match cs.drop 1 with
      | [] => c :: sub_pair d fuel cs
      | c0 :: rest0 =>
        if c0 = '\n' then c :: sub_pair d fuel cs
        else
          match scan_pair_close d rest0 with
          | some (content, rest) => (c0 :: content) ++ sub_pair d fuel rest
          | none => c :: sub_pair d fuel cs
    else c :: sub_pair d fuel cs

/-- Scan for the earliest single delimiter, aborting at a newline. -/
def scan_single_close (d : Char) : List Char → Option (List Char × List Char)
  | [] => none
  | c :: cs =>
    if c = d then some ([], cs)
    else if c = '\n' then none
    else
      match scan_single_close d cs with
      | some (content, rest) => some (c :: content, rest)
      | none => none

/-- Pass for `re.sub(r'\*(.+?)\*', r'\1', ...)` and the `_` variant. -/
def sub_single (d : Char) : Nat → List Char → List Char
  | 0, l => l
  | _ + 1, [] => []
  | fuel + 1, c :: cs =>
    if c = d then
      match cs with
      | [] => c :: sub_single d fuel cs
      | c0 :: rest0 =>
        if c0 = '\n' then c :: sub_single d fuel cs
        else
          match scan_single_close d rest0 with
          | some (content, rest) => (c0 :: content) ++ sub_single d fuel rest
          | none => c :: sub_single d fuel cs
    else c :: sub_single d fuel cs

/-- Scan up to the earliest `stop` character (the character class is
complemented, so any other character including a newline is content). -/
def scan_stop (stop : Char) : List Char → Option (List Char × List Char)
  | [] => none
  | c :: cs =>
    if c = stop then some ([], cs)
    else
      match scan_stop stop cs with
      | some (content, rest) => some (c :: content, rest)
      | none => none

/-- Pass for `re.sub(r'\[([^\]]+)\]\(([^)]+)\)', r'\1 (\2)', ...)`. -/
def sub_links : Nat → List Char → List Char
  | 0, l => l
  | _ + 1, [] => []
  | fuel + 1, c :: cs =>
    if c = '[' then
      match scan_stop ']' cs with
      | some (txt, rest1) =>
        if txt = [] then c :: sub_links fuel cs
        else
          match rest1 with
          | '(' :: rest2 =>
            match scan_stop ')' rest2 with
            | some (url, rest3) =>
              if url = [] then c :: sub_links fuel cs
              else txt ++ (' ' :: '(' :: url) ++ (')' :: sub_links fuel rest3)
            | none => c :: sub_links fuel cs
          | _ => c :: sub_links fuel cs
      | none => c :: sub_links fuel cs
    else c :: sub_links fuel cs

/-- Length of the leading run of `d` and the text after the run. -/
def count_leading (d : Char) : List Char → Nat × List Char
  | [] => (0, [])
  | c :: cs =>
    if c = d then
      let (n, r) := count_leading d cs
      (n + 1, r)
    else (0, c :: cs)

/-- Drop the maximal whitespace prefix, remembering the last dropped char. -/
def drop_ws_last : List Char → Option Char → Option Char × List Char
  | [], last => (last, [])
  | c :: cs, last => if is_ws c then drop_ws_last cs (some c) else (last, c :: cs)

/-- Pass for `re.sub(r'^#\x7b1,6\x7d\s+', '', text, flags=re.MULTILINE)`.
The Bool tracks whether the scanner is at the beginning of a line. -/
def sub_headers : Nat → Bool → List Char → List Char
  | 0, _, l => l
  | _ + 1, _, [] => []
  | fuel + 1, bol, c :: cs =>
    if bol ∧ c = '#' then
      let (n, rest) := count_leading '#' (c :: cs)
      if n ≤ 6 ∧ (match rest with | r :: _ => is_ws r | [] => false) = true then
        let (last, rest2) := drop_ws_last rest none
        sub_headers fuel (last == some '\n') rest2
      else c :: sub_headers fuel false cs
    else c :: sub_headers fuel (c = '\n') cs

/-- Take the maximal whitespace prefix. -/
def take_ws : List Char → List Char × List Char
  | [] => ([], [])
  | c :: cs =>
    if is_ws c then
      let (a, b) := take_ws cs
      (c :: a, b)
    else ([], c :: cs)

/-- Split a run at its last newline: (part before it, part from it on). -/
def split_last_nl : List Char → Option (List Char × List Char)
  | [] => none
  | c :: cs =>
    match split_last_nl cs with
    | some (a, b) => some (c :: a, b)
    | none => if c = '\n' then some ([], c :: cs) else none

/-- Pass for `re.sub(r'^---+\s*$', '', text, flags=re.MULTILINE)`: at a line
start, three or more dashes, then greedy whitespace backtracking until the
`$` anchor (end of string or just before a newline) holds. -/
def sub_hrules : Nat → Bool → List Char → List Char
  | 0, _, l => l
  | _ + 1, _, [] => []
  | fuel + 1, bol, c :: cs =>
    if bol ∧ c = '-' then
      let (n, rest) := count_leading '-' (c :: cs)
      if 3 ≤ n then
        let (ws, rest2) := take_ws rest
        match rest2 with
        | [] => []
        | _ =>
          match split_last_nl ws with
          | some (before, fromNl) =>
            sub_hrules fuel (before.getLast? == some '\n') (fromNl ++ rest2)
          | none => c :: sub_hrules fuel false cs
      else c :: sub_hrules fuel false cs
    else c :: sub_hrules fuel (c = '\n') cs

/-- Pass for `re.sub(r'\n\x7b3,\x7d', '\n\n', text)`. -/
def sub_blank_lines : Nat → List Char → List Char
  | 0, l => l
  | _ + 1, [] => []
  | fuel + 1, c :: cs =>
    if c = '\n' ∧ cs.take 2 = ['\n', '\n'] then
      let (_, rest) := count_leading '\n' (c :: cs)
      '\n' :: '\n' :: sub_blank_lines fuel rest
    else c :: sub_blank_lines fuel cs

/-- Python `str.strip()`. -/
def trim_ws (l : List Char) : List Char :=
  ((l.dropWhile is_ws).reverse.dropWhile is_ws).reverse

/-- `strip_markdown` from openai_client.py: remove markdown formatting. -/
def strip_markdown (text : String) : String :=
  if text = "" then ""
  else
    let l0 := text.data
    let l1 := sub_code_blocks (l0.length + 1) l0
    let l2 := sub_inline_code (l1.length + 1) l1
    let l3 := sub_pair '*' (l2.length + 1) l2
    let l4 := sub_single '*' (l3.length + 1) l3
    let l5 := sub_pair '_' (l4.length + 1) l4
    let l6 := sub_single '_' (l5.length + 1) l5
    let l7 := sub_links (l6.length + 1) l6
    let l8 := sub_headers (l7.length + 1) true l7
    let l9 := sub_hrules (l8.length + 1) true l8
    let l10 := sub_blank_lines (l9.length + 1) l9
    String.mk (trim_ws l10)

/-- `strip_markdown` applied to a string-or-None value (the `if not text`
guard maps `None` to the empty string). -/
def strip_markdown_val (v : Option String) : String :=
  match v with
  | none => ""
  | some s => strip_markdown s

/-! ## AI provider abstraction (core/ai_provider.py)

A provider's `chat` is a function of `(messages, tools, max_tokens,
temperature)`.  The HTTP request plus response parsing of the two concrete
providers is abstracted as a `HttpOutcome`: any exception anywhere inside
the `try` block (transport error, bad JSON, missing keys) is a `failure`
carrying the exception text, a successful parse yields the message content
and the parsed tool calls.
-/

structure ToolCall where
  id : String
  name : String
  arguments : JObj

structure ProviderResult where
  content : PyContent
  tool_calls : List ToolCall

/-- A serialized tool call as embedded into an assistant message by the
agent loop (`type` is always "function", `arguments` a JSON dump). -/
structure SerializedToolCall where
  id : String
  type : String
  name : String
  arguments : String

/-- A chat message dict: `role`/`content` plus the optional tool-call
envelope fields used by the agent loop. -/
structure ChatMsg where
  role : String
  content : PyContent
  tool_calls : List SerializedToolCall
  tool_call_id : Option String

/-- A plain role/content message (no tool-call envelope). -/
def mk_msg (role content : String) : ChatMsg :=
  ⟨role, .str content, [], none⟩

abbrev ToolsArg := Option (List JValue)

abbrev ChatFn := List ChatMsg → ToolsArg → Nat → Rat → ProviderResult

inductive HttpOutcome where
  | failure (err : String)
  | success (content : PyContent) (tool_calls : List ToolCall)

/-- The error sentinel prefixed by every concrete provider on failure. -/
def ERR_SENTINEL : String := "AI 응답 오류: "

/-- Python `msg.get("content", d)` keeping a present `None`. -/
def content_default (c : PyContent) (d : String) : PyContent :=
  match c with
  | .missing => .str d
  | x => x

/-- `OpenAIProvider.chat` (ai_provider.py lines 49-91): on any exception the
sentinel-prefixed error text with no tool calls, otherwise the parsed
message (`content` defaulted to `""` when the key is missing). -/
def openai_provider_chat (outcome : HttpOutcome) : ProviderResult :=
  match outcome with
  | .failure e => ⟨.str (ERR_SENTINEL ++ e), []⟩
  | .success c tcs => ⟨content_default c "", tcs⟩

/-- `GeminiProvider.chat` (ai_provider.py lines 110-149): identical result
construction to `OpenAIProvider.chat`. -/
def gemini_provider_chat (outcome : HttpOutcome) : ProviderResult :=
  match outcome with
  | .failure e => ⟨.str (ERR_SENTINEL ++ e), []⟩
  | .success c tcs => ⟨content_default c "", tcs⟩

/-- Python `result.get("content")` (no default). -/
def content_opt (c : PyContent) : Option String :=
  match c with
  | .str s => some s
  | _ => none

/-- Python `content.startswith("AI 응답 오류:")`. -/
def starts_with_err (s : String) : Bool :=
  "AI 응답 오류:".data.isPrefixOf s.data

/-- `FallbackProvider.chat` (ai_provider.py lines 163-168).  `get_provider`
only constructs the wrapper with a real (truthy) fallback provider, so the
`and self.fallback` conjunct is always true and the fallback is a plain
`ChatFn`. -/
def fallback_provider_chat (primary fallback : ChatFn) : ChatFn :=
  fun messages tools max_tokens temperature =>
    let result := primary messages tools max_tokens temperature
    let content := py_or (content_opt result.content) ""
    if starts_with_err content then fallback messages tools max_tokens temperature
    else result

/-! ## Rule memory store (core/memory.py)

The single shared JSON document becomes an explicit `Memory` value: the
functions return the persisted state, so a path that returns before
`_save_memory` leaves the value unchanged (the discarded in-memory mutation
of the Python dict is not part of the persisted state).
-/

structure MRule where
  text : String
  category : String
  created_at : String
  used_count : Nat

structure Memory where
  rules : List (String × List MRule)
  corrections : List JValue
  updated_at : String

structure AddResult where
  success : Bool
  reason : Option String
  count : Nat

def MAX_RULES_PER_DOMAIN : Nat := 50

/-- Python `l[-n:]`. -/
def last_n {α : Type} (n : Nat) (l : List α) : List α :=
  l.drop (l.length - n)

/-- Python dict assignment on an association list (insertion order kept). -/
def assoc_set {α : Type} : List (String × α) → String → α → List (String × α)
  | [], key, v => [(key, v)]
  | (k, w) :: rest, key, v =>
    if k = key then (k, v) :: rest else (k, w) :: assoc_set rest key v

/-- The rule list of a domain (empty when the key is missing). -/
def rules_for (memory : Memory) (domain : String) : List MRule :=
  (memory.rules.lookup domain).getD []

/-- `add_rule` (memory.py lines 38-70): exact-text duplicate check, append,
truncate to the most recent 50, persist.  The duplicate branch returns
before `_save_memory`, so the persisted memory is unchanged. -/
def add_rule (memory : Memory) (domain rule_text category now : String) :
    AddResult × Memory :=
  let rules := rules_for memory domain
  if rules.any (fun r => r.text == rule_text) then
    (⟨false, some "duplicate", rules.length⟩, memory)
  else
    let appended := rules ++ [⟨rule_text, category, now, 0⟩]
    let trimmed :=
      if appended.length > MAX_RULES_PER_DOMAIN then last_n MAX_RULES_PER_DOMAIN appended
      else appended
    (⟨true, none, trimmed.length⟩,
      ⟨assoc_set memory.rules domain trimmed, memory.corrections, now⟩)

/-! ## Session store (core/session.py)

The per-key session file becomes a `FileContent` value: absent, textually
corrupt (not JSON), valid JSON that is not an object, or a stored session
object.  A stored object's `updated_at` is either a parseable ISO timestamp
(modelled as seconds, `Int`) or not parseable / missing (`bad` — Python
`datetime.fromisoformat` raises `ValueError`/`TypeError`, both caught by
`_is_expired`).  `datetime.now()` is the explicit `now : Int` parameter.
-/

structure SessionMsg where
  role : String
  content : String

inductive UpdatedAt where
  | iso (t : Int)
  | bad

/-- A pending interactive action.  The agent loop always builds these as
three-field dicts, hence non-empty and truthy; Python's `if action:` check
in `get_and_clear_pending_action` therefore coincides with `isSome`. -/
structure PendingAction where
  tool : String
  args : JObj
  field_name : String

structure Session where
  user_id : String
  channel_id : String
  session_scope : String
  domain : String
  messages : List SessionMsg
  pending_action : Option PendingAction
  created_at : Int
  updated_at : UpdatedAt

inductive FileContent where
  | absent
  | invalid_json
  | json_non_object
  | stored (s : Session)

def MAX_MESSAGES : Nat := 20

def DEFAULT_TTL : Int := 30

def empty_session (user_id channel_id session_scope : String) (now : Int) : Session :=
  ⟨user_id, channel_id, py_or_str session_scope "default", "", [], none, now, .iso now⟩

/-- `_is_expired` (session.py lines 40-46): strict comparison of the elapsed
minutes against the TTL; an unparseable timestamp counts as expired. -/
def is_expired (session : Session) (now : Int) (ttl_minutes : Int) : Bool :=
  match session.updated_at with
  | .iso t => now - t > 60 * ttl_minutes
  | .bad => true

/-- `get_session` (session.py lines 49-73).  `JSONDecodeError` is caught and
self-heals to an empty session; valid JSON that is not a dict raises an
uncaught `AttributeError` inside `_is_expired` (`session.get` on a non-dict). -/
def get_session (file : FileContent) (now : Int) (user_id channel_id : String)
    (ttl_minutes : Int) (session_scope : String) : Except String Session :=
  match file with
  | .stored s =>
    if is_expired s now ttl_minutes then
      .ok (empty_session user_id channel_id session_scope now)
    else .ok { s with session_scope := py_or_str session_scope "default" }
  | .json_non_object => .error "AttributeError"
  | .invalid_json => .ok (empty_session user_id channel_id session_scope now)
  | .absent => .ok (empty_session user_id channel_id session_scope now)

/-- `_save_session`: the new content of the session file. -/
def save_session (s : Session) : FileContent :=
  .stored s

/-- `update_session` (session.py lines 86-111). -/
def update_session (file : FileContent) (now : Int)
    (user_id channel_id domain user_msg assistant_msg : String)
    (ttl_minutes : Int) (session_scope : String) : Except String FileContent := do
  let session ← get_session file now user_id channel_id ttl_minutes session_scope
  let msgs := session.messages ++
    [⟨"user", user_msg⟩, ⟨"assistant", String.mk (assistant_msg.data.take 500)⟩]
  .ok (save_session { session with
    domain := domain
    session_scope := py_or_str session_scope "default"
    messages := last_n MAX_MESSAGES msgs
    updated_at := .iso now })

/-- `set_pending_action` (session.py lines 114-126). -/
def set_pending_action (file : FileContent) (now : Int) (user_id channel_id : String)
    (action : PendingAction) (ttl_minutes : Int) (session_scope : String) :
    Except String FileContent := do
  let session ← get_session file now user_id channel_id ttl_minutes session_scope
  .ok (save_session { session with
    session_scope := py_or_str session_scope "default"
    pending_action := some action
    updated_at := .iso now })

/-- `get_and_clear_pending_action` (session.py lines 129-142): read, clear,
persist; when no action is set nothing is written back. -/
def get_and_clear_pending_action (file : FileContent) (now : Int)
    (user_id channel_id : String) (ttl_minutes : Int) (session_scope : String) :
    Except String (Option PendingAction × FileContent) := do
  let session ← get_session file now user_id channel_id ttl_minutes session_scope
  let session := { session with session_scope := py_or_str session_scope "default" }
  match session.pending_action with
  | some action =>
    .ok (some action,
      save_session { session with pending_action := none, updated_at := .iso now })
  | none => .ok (none, file)

/-! ## Multi-turn tool execution loop (openai_client.py lines 311-447)

`chat_with_tools_multi` becomes a fuelled recursion: the Python
`for _ in range(max_tool_rounds)` body runs once per round, and the
post-loop "exhausted rounds" return corresponds to the fuel-zero
fall-through.  The embedding is instrumented: besides the returned turn
result it reports the final rule memory, the number of provider calls, the
`(name, args)` pairs passed to the tool executor, whether the round cap was
hit, and the content of the last provider result — all needed to state the
resource-bound and dispatch claims.  The function models calls with the
default `image_urls=None`, for which the image-attachment branch (lines
343-355) is a no-op.  It is used with `max_tool_rounds ≥ 1` (the Python
function would raise `NameError` after a loop over `range(0)`).
-/

def REQUEST_USER_CHOICE : String := "request_user_choice"

def LEARN_RULE : String := "learn_rule"

def EXCEEDED_MSG : String := "처리 한도를 초과했습니다."

structure Interactive where
  question : String
  options : List JValue
  action_id : String
  pending_action : PendingAction

structure LearnEvent where
  rule : String
  category : String
  domain : String
  created_at : String
  status : String

structure TurnResult where
  response : String
  interactive : Option Interactive
  learning_events : List LearnEvent

structure RunInfo where
  result : TurnResult
  final_memory : Memory
  provider_calls : Nat
  exec_calls : List (String × JObj)
  exhausted : Bool
  last_content : PyContent

abbrev ExecFn := String → JObj → String

/-- The serialized tool call of the assistant message (lines 420-428). -/
def serialize_call (tc : ToolCall) : SerializedToolCall :=
  ⟨tc.id, "function", tc.name, json_dumps (.obj tc.arguments)⟩

/-- The assistant message carrying the round's tool calls (lines 416-431). -/
def assistant_tool_msg (content : PyContent) (tool_calls : List ToolCall) : ChatMsg :=
  ⟨"assistant", content, tool_calls.map serialize_call, none⟩

/-- One tool-result message (lines 434-440). -/
def tool_result_msg (tool_executor : ExecFn) (tc : ToolCall) : ChatMsg :=
  ⟨"tool", .str (tool_executor tc.name tc.arguments), [], some tc.id⟩

/-- The interactive payload of a `request_user_choice` call (lines 400-413),
`action_id` models the source's `action_id_prefix` key. -/
def mk_interactive (args : JObj) : Interactive :=
  ⟨jget_str args "question" "",
    (jget_arr args "options").take 5,
    jget_str args "pending_tool" "action" ++ "_" ++ jget_str args "field_name" "field",
    ⟨jget_str args "pending_tool" "", jget_obj args "pending_args",
      jget_str args "field_name" ""⟩⟩

/-- One round of `chat_with_tools_multi` and the recursion into the next;
the fuel is the number of rounds still allowed after this one. -/
def chat_round (provider : ChatFn) (tool_executor : ExecFn) (tools : List JValue)
    (max_tokens : Nat) (domain : String) (now : String) :
    Nat → List ChatMsg → List LearnEvent → Memory → RunInfo
  | fuel, full_messages, learning_events, memory =>
    let result := provider full_messages (some tools) max_tokens (0.4 : Rat)
    if result.tool_calls.isEmpty then
      ⟨⟨strip_markdown_val (content_get result.content ""), none, learning_events⟩,
        memory, 1, [], false, result.content⟩
    else
      match result.tool_calls.find? (fun tc => tc.name == LEARN_RULE) with
      | some lc =>
        let args := lc.arguments
        let target_domain := py_or_str domain "global"
        let rule_text := jget_str args "rule" ""
        let category := jget_str args "category" "general"
        let ar := add_rule memory target_domain rule_text category now
        let add_result := ar.1
        let memory1 := ar.2
        let learning_events1 := learning_events ++
          [⟨rule_text, category, target_domain, now,
            if add_result.success then "learned" else add_result.reason.getD "skipped"⟩]
        let tool_calls := result.tool_calls.filter (fun tc => tc.name ≠ LEARN_RULE)
        if tool_calls.isEmpty then
          let confirm_msg := "규칙을 학습했습니다: " ++ jget_str args "rule" ""
          ⟨⟨strip_markdown (py_or (content_get result.content "") confirm_msg), none,
              learning_events1⟩,
            memory1, 1, [], false, result.content⟩
        else
          match tool_calls.find? (fun tc => tc.name == REQUEST_USER_CHOICE) with
          | some tc =>
            ⟨⟨strip_markdown (py_or (content_get result.content "")
                  (jget_str tc.arguments "question" "")),
                some (mk_interactive tc.arguments), learning_events1⟩,
              memory1, 1, [], false, result.content⟩
          | none =>
            let this_calls := tool_calls.map (fun tc => (tc.name, tc.arguments))
            let full_messages1 := full_messages ++
              assistant_tool_msg result.content tool_calls ::
                tool_calls.map (tool_result_msg tool_executor)
            match fuel with
            | 0 =>
              ⟨⟨strip_markdown_val (content_get result.content EXCEEDED_MSG), none,
                  learning_events1⟩,
                memory1, 1, this_calls, true, result.content⟩
            | f + 1 =>
              let rest := chat_round provider tool_executor tools max_tokens domain now
                f full_messages1 learning_events1 memory1
              { rest with
                provider_calls := rest.provider_calls + 1
                exec_calls := this_calls ++ rest.exec_calls }
      | none =>
        match result.tool_calls.find? (fun tc => tc.name == REQUEST_USER_CHOICE) with
        | some tc =>
          ⟨⟨strip_markdown (py_or (content_get result.content "")
                (jget_str tc.arguments "question" "")),
              some (mk_interactive tc.arguments), learning_events⟩,
            memory, 1, [], false, result.content⟩
        | none =>
          let tool_calls := result.tool_calls
          let this_calls := tool_calls.map (fun tc => (tc.name, tc.arguments))
          let full_messages1 := full_messages ++
            assistant_tool_msg result.content tool_calls ::
              tool_calls.map (tool_result_msg tool_executor)
          match fuel with
          | 0 =>
            ⟨⟨strip_markdown_val (content_get result.content EXCEEDED_MSG), none,
                learning_events⟩,
              memory, 1, this_calls, true, result.content⟩
          | f + 1 =>
            let rest := chat_round provider tool_executor tools max_tokens domain now
              f full_messages1 learning_events memory
            { rest with
              provider_calls := rest.provider_calls + 1
              exec_calls := this_calls ++ rest.exec_calls }

/-- `chat_with_tools_multi` (openai_client.py lines 311-447), instrumented. -/
def chat_with_tools_multi (provider : ChatFn) (tool_executor : ExecFn)
    (system_prompt : String) (messages : List ChatMsg) (tools : List JValue)
    (max_tokens : Nat) (max_tool_rounds : Nat) (domain : String)
    (now : String) (memory : Memory) : RunInfo :=
  chat_round provider tool_executor tools max_tokens domain now
    (max_tool_rounds - 1) (mk_msg "system" system_prompt :: messages) [] memory

/-! ## Domain classification (openai_client.py lines 454-510) -/

/-- Boolean infix test on character lists (Python `needle in haystack`). -/
def list_is_infix (p : List Char) : List Char → Bool
  | [] => p.isPrefixOf []
  | c :: rest => p.isPrefixOf (c :: rest) || list_is_infix p rest

/-- Python `needle in haystack` for strings. -/
def str_contains (haystack needle : String) : Bool :=
  list_is_infix needle.data haystack.data

/-- Python `str.strip()` (both ends, whitespace). -/
def py_strip (s : String) : String :=
  String.mk (trim_ws s.data)

/-- Python `str.lower()`, per code point (ASCII-effective, which covers the
configured keywords and the domain tokens). -/
def py_lower (s : String) : String :=
  String.mk (s.data.map Char.toLower)

/-- Keyword score of one domain: `sum(1 for kw in keywords if kw in msg)`. -/
def keyword_score (msg_lower : String) (keywords : List String) : Nat :=
  (keywords.filter (fun kw => str_contains msg_lower kw)).length

/-- The `scores` dict: domains with a positive score, in insertion order. -/
def score_table (msg_lower : String)
    (domain_keywords : List (String × List String)) : List (String × Nat) :=
  domain_keywords.filterMap (fun p =>
    let score := keyword_score msg_lower p.2
    if score > 0 then some (p.1, score) else none)

/-- Python `max(scores, key=scores.get)`: the first entry achieving the
maximal value, in insertion order. -/
def first_max : List (String × Nat) → Option (String × Nat)
  | [] => none
  | x :: xs => some (xs.foldl (fun b y => if y.2 > b.2 then y else b) x)

def classifier_system_msg : String :=
  "You are a domain classifier. Given a user message, output ONLY " ++
  "one domain name from: schedule, content, finance, travel, tools, business, workspace. " ++
  "No explanation, no punctuation — just the domain name."

def domains_desc (domain_keywords : List (String × List String)) : String :=
  String.intercalate "\n" (domain_keywords.map (fun p =>
    "- " ++ p.1 ++ ": " ++ String.intercalate ", " p.2))

def classifier_user_msg (message : String)
    (domain_keywords : List (String × List String)) : String :=
  "도메인 목록:\n" ++ domains_desc domain_keywords ++
  "\n\n사용자 메시지: " ++ message ++ "\n\n도메인:"

/-- Phase 2 of `classify_domain`: one LLM call, then scan the stripped,
lower-cased response for a domain token.  CPython iterates the `valid` set
literal in an unspecified hash order; `valid_order` is that enumeration
order, passed explicitly. -/
def classify_phase2 (provider : ChatFn) (valid_order : List String)
    (message : String) (domain_keywords : List (String × List String)) : String :=
  let result := provider
    [mk_msg "system" classifier_system_msg,
      mk_msg "user" (classifier_user_msg message domain_keywords)]
    none 50 (0 : Rat)
  let text := py_lower (py_strip (py_or (content_opt result.content) ""))
  match valid_order.find? (fun d => str_contains text d) with
  | some d => d
  | none => "schedule"

/-- `classify_domain` (openai_client.py lines 454-510), instrumented with a
Bool telling whether the phase-2 LLM call was made. -/
def classify_domain (provider : ChatFn) (valid_order : List String)
    (message : String) (domain_keywords : List (String × List String)) :
    String × Bool :=
  let msg_lower := py_lower message
  let scores := score_table msg_lower domain_keywords
  match first_max scores with
  | some best =>
    let top_score := best.2
    let tied := scores.filter (fun p => p.2 == top_score)
    if tied.length == 1 then (best.1, false)
    else (classify_phase2 provider valid_order message domain_keywords, true)
  | none => (classify_phase2 provider valid_order message domain_keywords, true)

/-! ## Pending-action resolution bridge (assistant.py lines 78-118) -/

structure ResolveResult where
  response : String
  domain : String

/-- An apostrophe, built from its code point. -/
def squote : String := String.singleton (Char.ofNat 39)

/-- Strip a leading `"functions."` from a tool name (assistant.py 97-99). -/
def strip_functions (tool_name : String) : String :=
  if "functions.".data.isPrefixOf tool_name.data then String.mk (tool_name.data.drop 10)
  else tool_name

/-- `handle_resolve_action` (assistant.py lines 78-118).  `get_exec` models
`_get_domain_exec_tool`: the lookup from a domain name to its tool
executor (the domain executors themselves are out-of-scope collaborators). -/
def handle_resolve_action (get_exec : String → Option ExecFn) (file : FileContent)
    (now : Int) (value user_id channel_id : String) (session_ttl : Int)
    (session_scope : String) : Except String (ResolveResult × FileContent) := do
  let (action, file1) ←
    get_and_clear_pending_action file now user_id channel_id session_ttl session_scope
  match action with
  | none => .ok (⟨"처리할 대기 작업이 없습니다.", "unknown"⟩, file1)
  | some act =>
    let session ← get_session file1 now user_id channel_id session_ttl session_scope
    let domain := session.domain
    let tool_name := strip_functions act.tool
    let args := jset act.args act.field_name (.str value)
    match get_exec domain with
    | none =>
      .ok (⟨"도메인 " ++ squote ++ domain ++ squote ++ "의 도구를 찾을 수 없습니다.",
        domain⟩, file1)
    | some exec_tool =>
      let resp := exec_tool tool_name args
      let file2 ← update_session file1 now user_id channel_id domain
        ("[버튼 선택: " ++ value ++ "]") resp session_ttl session_scope
      .ok (⟨resp, domain⟩, file2)

/-! ## Iterated session updates (for the message-window property) -/

structure UpdStep where
  now : Int
  domain : String
  user_msg : String
  assistant_msg : String

/-- A sequence of `update_session` calls on the same key. -/
def apply_updates (user_id channel_id : String) (ttl_minutes : Int)
    (session_scope : String) : FileContent → List UpdStep → Except String FileContent
  | file, [] => .ok file
  | file, s :: rest => do
    let file1 ← update_session file s.now user_id channel_id s.domain
      s.user_msg s.assistant_msg ttl_minutes session_scope
    apply_updates user_id channel_id ttl_minutes session_scope file1 rest

/-- The user/assistant message pairs appended by a sequence of updates. -/
def turn_pairs : List UpdStep → List SessionMsg
  | [] => []
  | s :: rest =>
    ⟨"user", s.user_msg⟩ :: ⟨"assistant", String.mk (s.assistant_msg.data.take 500)⟩ ::
      turn_pairs rest

/-- Each step happens within `ttl_minutes` of the previous one (`t` is the
time of the previous write). -/
def within_ttl (ttl_minutes : Int) : Int → List UpdStep → Bool
  | _, [] => true
  | t, s :: rest => decide (s.now - t ≤ 60 * ttl_minutes) && within_ttl ttl_minutes s.now rest

/-- All consecutive steps of the sequence happen within the TTL (the first
step is unconstrained: it starts from an absent session file). -/
def steps_within_ttl (ttl_minutes : Int) : List UpdStep → Bool
  | [] => true
  | s :: rest => within_ttl ttl_minutes s.now rest

/-- The time of the last step (or the start time for no steps). -/
def last_time : Int → List UpdStep → Int
  | t, [] => t
  | _, s :: rest => last_time s.now rest

/-- The message list stored in a session file. -/
def file_messages : FileContent → List SessionMsg
  | .stored s => s.messages
  | _ => []

/-! ## Concrete fixtures (used by witnesses and counterexamples) -/

def memory0 : Memory := ⟨[], [], ""⟩

/-- A provider that always answers with one ordinary tool call. -/
def ping_provider : ChatFn := fun _ _ _ _ =>
  ⟨.str "thinking", [⟨"id1", "do_thing", [("k", .str "v")]⟩]⟩

/-- A tool executor that returns the tool name. -/
def echo_exec : ExecFn := fun name _ => name

def ping_run : RunInfo :=
  chat_with_tools_multi ping_provider echo_exec "sys" [mk_msg "user" "hi"] []
    1500 3 "" "T" memory0

def choice_args : JObj :=
  [("question", .str "which day?"), ("options", .arr [.str "mon", .str "tue"]),
    ("field_name", .str "day"), ("pending_tool", .str "book"),
    ("pending_args", .obj [("title", .str "meeting")])]

def choice_provider : ChatFn := fun _ _ _ _ =>
  ⟨.pynull, [⟨"c1", "request_user_choice", choice_args⟩]⟩

/-- A round whose batch holds two rule-learning calls. -/
def learn_two_calls : List ToolCall :=
  [⟨"l1", "learn_rule", [("rule", .str "rule one"), ("category", .str "preference")]⟩,
    ⟨"l2", "learn_rule", [("rule", .str "rule two"), ("category", .str "general")]⟩]

def learn_two_provider : ChatFn := fun _ _ _ _ => ⟨.pynull, learn_two_calls⟩

def learn_two_run : RunInfo :=
  chat_with_tools_multi learn_two_provider echo_exec "sys" [mk_msg "user" "teach"] []
    1500 3 "" "T" memory0

/-- First round: one rule-learning call only. -/
def learn_one_provider : ChatFn := fun _ _ _ _ =>
  ⟨.pynull, [⟨"l1", "learn_rule", [("rule", .str "always X"), ("category", .str "preference")]⟩]⟩

/-- First round: a rule-learning call mixed with an ordinary tool call,
second round: plain text. -/
def learn_mix_provider : ChatFn := fun msgs _ _ _ =>
  if msgs.length ≤ 2 then
    ⟨.str "mixing",
      [⟨"l1", "learn_rule", [("rule", .str "r1"), ("category", .str "general")]⟩,
        ⟨"t1", "do_thing", [("k", .num 1)]⟩]⟩
  else ⟨.str "done", []⟩

def failing_primary : ChatFn := fun _ _ _ _ => openai_provider_chat (.failure "boom")

def ok_primary : ChatFn := fun _ _ _ _ => ⟨.str "fine", []⟩

def ok_secondary : ChatFn := fun _ _ _ _ => ⟨.str "from fallback", []⟩

def kwmap : List (String × List String) :=
  [("schedule", ["meeting", "calendar"]), ("finance", ["pay", "invoice"])]

def token_provider : ChatFn := fun _ _ _ _ => ⟨.str " FINANCE! ", []⟩

def nonsense_provider : ChatFn := fun _ _ _ _ => ⟨.str "banana", []⟩

def sess0 : Session := empty_session "u" "c" "default" 0

def pend_session (t : String) : Session :=
  { sess0 with pending_action := some ⟨t, [("title", .str "m")], "day"⟩, domain := "schedule" }

def exec_echo_lookup : String → Option ExecFn := fun _ => some (fun name _ => name)

def upd_steps : List UpdStep :=
  [⟨0, "schedule", "hello", "world"⟩, ⟨60, "schedule", "again", "reply"⟩]

/-! ## General helper lemmas -/

theorem last_n_of_le {α : Type} {n : Nat} {l : List α} (h : l.length ≤ n) :
    last_n n l = l := by
  unfold last_n
  have h0 : l.length - n = 0 := by omega
  simp [h0]

theorem last_n_length {α : Type} (n : Nat) (l : List α) :
    (last_n n l).length = min l.length n := by
  unfold last_n
  simp
  omega

theorem assoc_set_lookup {α : Type} (l : List (String × α)) (k : String) (v : α) :
    (assoc_set l k v).lookup k = some v := by
  induction l with
  | nil => simp [assoc_set, List.lookup]
  | cons x rest ih =>
    obtain ⟨k', w⟩ := x
    by_cases hk : k' = k
    · subst hk
      simp [assoc_set, List.lookup]
    · simp only [assoc_set, if_neg hk, List.lookup]
      have : (k == k') = false := by
        simp [Ne.symm hk]
      simp [this, ih]

theorem mem_drop_append_last {α : Type} (xs : List α) (r : α) :
    ∀ k, k ≤ xs.length → r ∈ (xs ++ [r]).drop k := by
  induction xs with
  | nil =>
    intro k hk
    simp only [List.length_nil, Nat.le_zero] at hk
    subst hk
    simp
  | cons x t ih =>
    intro k hk
    match k with
    | 0 => simp
    | j + 1 =>
      simp only [List.cons_append, List.drop_succ_cons]
      exact ih j (by simpa using hk)

/-! ## Claim C4 — get_session self-healing -/

/-- C4 counterexample: a stored session file holding valid JSON that is not
an object (for example the document `[1, 2]`) is corrupt content, yet
`get_session` raises an uncaught `AttributeError` (from `session.get` on a
non-dict inside `_is_expired`; only `JSONDecodeError` and `KeyError` are
caught) instead of returning a fresh empty session without exception. -/
theorem get_session_non_object_raises :
    get_session .json_non_object 5 "u" "c" 30 "default" = .error "AttributeError" := rfl

/-- C4 (amended): `get_session` returns a freshly-initialized empty session
(domain = "", messages = [], pending_action = none) whenever the session
file is absent, or its content is not parseable as JSON, or the stored
`updated_at` is older than `ttl_minutes`, or the stored `updated_at` is
missing/unparseable; but content that is valid JSON without being an object
raises an uncaught error instead (see the counterexample). -/
theorem get_session_self_heal :
    (∀ (now : Int) (uid cid : String) (ttl : Int) (scope : String),
      get_session .absent now uid cid ttl scope = .ok (empty_session uid cid scope now)) ∧
    (∀ (now : Int) (uid cid : String) (ttl : Int) (scope : String),
      get_session .invalid_json now uid cid ttl scope =
        .ok (empty_session uid cid scope now)) ∧
    (∀ (s : Session) (t now : Int) (uid cid : String) (ttl : Int) (scope : String),
      s.updated_at = .iso t → now - t > 60 * ttl →
      get_session (.stored s) now uid cid ttl scope =
        .ok (empty_session uid cid scope now)) ∧
    (∀ (s : Session) (now : Int) (uid cid : String) (ttl : Int) (scope : String),
      s.updated_at = .bad →
      get_session (.stored s) now uid cid ttl scope =
        .ok (empty_session uid cid scope now)) := by
  refine ⟨fun _ _ _ _ _ => rfl, fun _ _ _ _ _ => rfl, ?_, ?_⟩
  · intro s t now uid cid ttl scope h1 h2
    simp [get_session, is_expired, h1, h2]
  · intro s now uid cid ttl scope h1
    simp [get_session, is_expired, h1]

/-- Witness for C4's amended theorem at concrete inputs. -/
theorem get_session_self_heal_witness :
    get_session .absent 5 "u" "c" 30 "default" = .ok (empty_session "u" "c" "default" 5) ∧
    get_session .invalid_json 5 "u" "c" 30 "default" =
      .ok (empty_session "u" "c" "default" 5) ∧
    get_session (.stored sess0) 1801 "u" "c" 30 "default" =
      .ok (empty_session "u" "c" "default" 1801) ∧
    get_session (.stored { sess0 with updated_at := .bad }) 5 "u" "c" 30 "default" =
      .ok (empty_session "u" "c" "default" 5) :=
  ⟨get_session_self_heal.1 5 "u" "c" 30 "default",
    get_session_self_heal.2.1 5 "u" "c" 30 "default",
    get_session_self_heal.2.2.1 sess0 0 1801 "u" "c" 30 "default" rfl (by decide),
    get_session_self_heal.2.2.2 _ 5 "u" "c" 30 "default" rfl⟩

/-! ## Claim C9 — add_rule deduplication and cap -/

theorem add_rule_trim_eq (l : List MRule) (r : MRule) :
    (if (l ++ [r]).length > MAX_RULES_PER_DOMAIN
      then last_n MAX_RULES_PER_DOMAIN (l ++ [r]) else l ++ [r]) =
    last_n MAX_RULES_PER_DOMAIN (l ++ [r]) := by
  split
  · rfl
  · rw [last_n_of_le]
    omega

theorem add_rule_dup (memory : Memory) (domain text cat now : String)
    (h : (rules_for memory domain).any (fun r => r.text == text) = true) :
    add_rule memory domain text cat now =
      (⟨false, some "duplicate", (rules_for memory domain).length⟩, memory) := by
  simp [add_rule, h]

theorem add_rule_not_dup (memory : Memory) (domain text cat now : String)
    (h : (rules_for memory domain).any (fun r => r.text == text) = false) :
    add_rule memory domain text cat now =
      (⟨true, none, (last_n MAX_RULES_PER_DOMAIN
          (rules_for memory domain ++ [⟨text, cat, now, 0⟩])).length⟩,
        ⟨assoc_set memory.rules domain
            (last_n MAX_RULES_PER_DOMAIN (rules_for memory domain ++ [⟨text, cat, now, 0⟩])),
          memory.corrections, now⟩) := by
  simp only [add_rule, h, Bool.false_eq_true, if_false]
  rw [add_rule_trim_eq]

theorem rules_for_set (memory : Memory) (domain : String) (l : List MRule)
    (corr : List JValue) (upd : String) :
    rules_for ⟨assoc_set memory.rules domain l, corr, upd⟩ domain = l := by
  simp [rules_for, assoc_set_lookup]

/-- C9: `add_rule` is duplicate-rejecting and atomic on rejection: after a
successful add, adding the same text again returns success = false with
reason "duplicate" and the persisted memory unchanged, reporting the
domain's current rule count; a non-duplicate call succeeds and leaves the
domain's list equal to the previous list plus the new rule, truncated to
the most recent 50 entries; from an empty domain the first add yields
exactly one rule (count 1). -/
theorem add_rule_dedup :
    (∀ (memory : Memory) (domain text cat now1 cat2 now2 : String),
      (add_rule memory domain text cat now1).1.success = true →
      (add_rule (add_rule memory domain text cat now1).2 domain text cat2 now2).1.success
          = false ∧
      (add_rule (add_rule memory domain text cat now1).2 domain text cat2 now2).1.reason
          = some "duplicate" ∧
      (add_rule (add_rule memory domain text cat now1).2 domain text cat2 now2).2
          = (add_rule memory domain text cat now1).2 ∧
      (add_rule (add_rule memory domain text cat now1).2 domain text cat2 now2).1.count
          = (rules_for (add_rule memory domain text cat now1).2 domain).length) ∧
    (∀ (memory : Memory) (domain text cat now : String),
      rules_for memory domain = [] →
      rules_for (add_rule memory domain text cat now).2 domain = [⟨text, cat, now, 0⟩] ∧
      (add_rule memory domain text cat now).1.count = 1) ∧
    (∀ (memory : Memory) (domain text cat now : String),
      (∀ r ∈ rules_for memory domain, r.text ≠ text) →
      (add_rule memory domain text cat now).1.success = true ∧
      rules_for (add_rule memory domain text cat now).2 domain =
        last_n MAX_RULES_PER_DOMAIN (rules_for memory domain ++ [⟨text, cat, now, 0⟩])) := by
  have hfresh : ∀ (memory : Memory) (domain text : String),
      (∀ r ∈ rules_for memory domain, r.text ≠ text) →
      (rules_for memory domain).any (fun r => r.text == text) = false := by
    intro memory domain text hall
    rw [Bool.eq_false_iff]
    intro h
    rw [List.any_eq_true] at h
    obtain ⟨r, hr, hrt⟩ := h
    exact hall r hr (by simpa using hrt)
  refine ⟨?_, ?_, ?_⟩
  · intro memory domain text cat now1 cat2 now2 hsucc
    have hdup : (rules_for memory domain).any (fun r => r.text == text) = false := by
      by_contra h
      rw [Bool.not_eq_false] at h
      rw [add_rule_dup memory domain text cat now1 h] at hsucc
      simp at hsucc
    rw [add_rule_not_dup memory domain text cat now1 hdup]
    have hrules : rules_for
        (⟨assoc_set memory.rules domain
            (last_n MAX_RULES_PER_DOMAIN (rules_for memory domain ++ [⟨text, cat, now1, 0⟩])),
          memory.corrections, now1⟩ : Memory) domain =
        last_n MAX_RULES_PER_DOMAIN (rules_for memory domain ++ [⟨text, cat, now1, 0⟩]) :=
      rules_for_set memory domain _ _ _
    have hmem : (⟨text, cat, now1, 0⟩ : MRule) ∈
        last_n MAX_RULES_PER_DOMAIN (rules_for memory domain ++ [⟨text, cat, now1, 0⟩]) := by
      unfold last_n
      apply mem_drop_append_last
      simp only [List.length_append, List.length_cons, List.length_nil,
        MAX_RULES_PER_DOMAIN]
      omega
    have hdup2 : (rules_for
        (⟨assoc_set memory.rules domain
            (last_n MAX_RULES_PER_DOMAIN (rules_for memory domain ++ [⟨text, cat, now1, 0⟩])),
          memory.corrections, now1⟩ : Memory) domain).any (fun r => r.text == text) = true := by
      rw [hrules, List.any_eq_true]
      exact ⟨_, hmem, by simp⟩
    rw [add_rule_dup _ domain text cat2 now2 hdup2]
    exact ⟨rfl, rfl, rfl, rfl⟩
  · intro memory domain text cat now hempty
    have hdup : (rules_for memory domain).any (fun r => r.text == text) = false := by
      simp [hempty]
    rw [add_rule_not_dup memory domain text cat now hdup]
    rw [hempty]
    constructor
    · rw [rules_for_set]
      rw [last_n_of_le (by simp only [List.nil_append, List.length_cons,
        List.length_nil, MAX_RULES_PER_DOMAIN]; omega)]
      simp
    · rw [show (last_n MAX_RULES_PER_DOMAIN ([] ++ [(⟨text, cat, now, 0⟩ : MRule)])) =
          [(⟨text, cat, now, 0⟩ : MRule)] from by
        rw [last_n_of_le (by simp only [List.nil_append, List.length_cons,
          List.length_nil, MAX_RULES_PER_DOMAIN]; omega)]
        simp]
      rfl
  · intro memory domain text cat now hall
    rw [add_rule_not_dup memory domain text cat now (hfresh memory domain text hall)]
    exact ⟨rfl, rules_for_set memory domain _ _ _⟩

/-- Witness for C9 at concrete inputs: two identical adds from an empty
memory. -/
theorem add_rule_dedup_witness :
    (add_rule memory0 "finance" "X" "mapping" "t1").1.success = true ∧
    (add_rule (add_rule memory0 "finance" "X" "mapping" "t1").2 "finance" "X" "mapping"
        "t2").1.success = false ∧
    (add_rule (add_rule memory0 "finance" "X" "mapping" "t1").2 "finance" "X" "mapping"
        "t2").1.reason = some "duplicate" ∧
    (add_rule (add_rule memory0 "finance" "X" "mapping" "t1").2 "finance" "X" "mapping"
        "t2").2 = (add_rule memory0 "finance" "X" "mapping" "t1").2 ∧
    (add_rule (add_rule memory0 "finance" "X" "mapping" "t1").2 "finance" "X" "mapping"
        "t2").1.count = 1 ∧
    rules_for (add_rule memory0 "finance" "X" "mapping" "t1").2 "finance" =
      [⟨"X", "mapping", "t1", 0⟩] := by
  have h1 := add_rule_dedup.2.1 memory0 "finance" "X" "mapping" "t1" rfl
  have h2 := add_rule_dedup.1 memory0 "finance" "X" "mapping" "t1" "mapping" "t2"
    (by rfl)
  refine ⟨by rfl, h2.1, h2.2.1, h2.2.2.1, ?_, h1.1⟩
  rw [h2.2.2.2, h1.1]
  rfl

/-! ## Claim C7 — provider error handling and fallback -/

theorem isPrefixOf_append_self (p l : List Char) : p.isPrefixOf (p ++ l) = true := by
  rw [List.isPrefixOf_iff_prefix]
  exact List.prefix_append p l

theorem starts_with_err_sentinel (e : String) :
    starts_with_err (ERR_SENTINEL ++ e) = true := by
  unfold starts_with_err ERR_SENTINEL
  rw [show ("AI 응답 오류: " : String) = "AI 응답 오류:" ++ " " from by decide]
  rw [String.append_assoc, String.data_append]
  exact isPrefixOf_append_self _ _

/-- C7: each concrete provider maps any transport/parse failure to a result
with sentinel-prefixed error text and no tool calls (never an exception);
`FallbackProvider.chat` invokes the secondary exactly when the primary's
content begins with the sentinel "AI 응답 오류:", passing the same messages,
tools, max_tokens and temperature and returning the secondary's result
unmodified; otherwise it returns the primary's result and the result does
not depend on the secondary at all. -/
theorem provider_error_fallback :
    (∀ e : String,
      openai_provider_chat (.failure e) = ⟨.str (ERR_SENTINEL ++ e), []⟩ ∧
      gemini_provider_chat (.failure e) = ⟨.str (ERR_SENTINEL ++ e), []⟩ ∧
      starts_with_err (ERR_SENTINEL ++ e) = true) ∧
    (∀ (primary fallback : ChatFn) (messages : List ChatMsg) (tools : ToolsArg)
        (max_tokens : Nat) (temperature : Rat),
      (starts_with_err (py_or (content_opt
            (primary messages tools max_tokens temperature).content) "") = true →
        fallback_provider_chat primary fallback messages tools max_tokens temperature =
          fallback messages tools max_tokens temperature) ∧
      (starts_with_err (py_or (content_opt
            (primary messages tools max_tokens temperature).content) "") = false →
        fallback_provider_chat primary fallback messages tools max_tokens temperature =
          primary messages tools max_tokens temperature ∧
        ∀ fb2 : ChatFn,
          fallback_provider_chat primary fb2 messages tools max_tokens temperature =
            fallback_provider_chat primary fallback messages tools max_tokens
              temperature)) := by
  constructor
  · intro e
    exact ⟨rfl, rfl, starts_with_err_sentinel e⟩
  · intro primary fallback messages tools max_tokens temperature
    constructor
    · intro h
      simp [fallback_provider_chat, h]
    · intro h
      refine ⟨by simp [fallback_provider_chat, h], fun fb2 => by
        simp [fallback_provider_chat, h]⟩

/-- Witness for C7 at concrete inputs: a failing primary falls back, a
healthy primary does not. -/
theorem provider_error_fallback_witness :
    openai_provider_chat (.failure "boom") = ⟨.str (ERR_SENTINEL ++ "boom"), []⟩ ∧
    starts_with_err (ERR_SENTINEL ++ "boom") = true ∧
    fallback_provider_chat failing_primary ok_secondary [] none 10 (0.4 : Rat) =
      ok_secondary [] none 10 (0.4 : Rat) ∧
    fallback_provider_chat ok_primary ok_secondary [] none 10 (0.4 : Rat) =
      ok_primary [] none 10 (0.4 : Rat) :=
  ⟨(provider_error_fallback.1 "boom").1, (provider_error_fallback.1 "boom").2.2,
    (provider_error_fallback.2 failing_primary ok_secondary [] none 10 (0.4 : Rat)).1
      (by decide),
    ((provider_error_fallback.2 ok_primary ok_secondary [] none 10 (0.4 : Rat)).2
      (by decide)).1⟩

/-! ## Claim C10 — resolve-action tool-name prefix stripping -/

theorem strip_functions_append (X : String) :
    strip_functions ("functions." ++ X) = X := by
  unfold strip_functions
  rw [String.data_append, if_pos (isPrefixOf_append_self _ _)]
  rw [show (10 : Nat) = "functions.".data.length from rfl, List.drop_left]

theorem strip_functions_of_no_pre (X : String)
    (hX : "functions.".data.isPrefixOf X.data = false) :
    strip_functions X = X := by
  unfold strip_functions
  rw [hX]
  simp

/-- C10 counterexample: the claim fails when the bare tool name itself
begins with "functions.": a pending action with tool
"functions.functions.y" invokes the executor with "functions.y", while a
pending action with tool "functions.y" invokes it with "y" — refuted with
an executor that returns the tool name it receives. -/
theorem resolve_action_double_prefix_cex :
    (handle_resolve_action exec_echo_lookup (.stored (pend_session "functions.functions.y"))
        5 "mon" "u" "c" 30 "default").map (fun p => p.1.response) = .ok "functions.y" ∧
    (handle_resolve_action exec_echo_lookup (.stored (pend_session "functions.y"))
        5 "mon" "u" "c" 30 "default").map (fun p => p.1.response) = .ok "y" := by
  exact ⟨rfl, rfl⟩

/-- C10 (amended): provided the bare tool name `X` does not itself begin
with "functions." and the session is live, a pending action whose tool is
"functions." ++ X produces exactly the same resolution (same executor
invocation, same response, same stored session) as one whose tool is X. -/
theorem resolve_action_functions_alias (get_exec : String → Option ExecFn)
    (s : Session) (X : String) (args : JObj) (field value uid cid : String)
    (now t : Int) (ttl : Int) (scope : String)
    (hupd : s.updated_at = .iso t) (hlive : ¬ (now - t > 60 * ttl))
    (hX : "functions.".data.isPrefixOf X.data = false) :
    handle_resolve_action get_exec
        (.stored { s with pending_action := some ⟨"functions." ++ X, args, field⟩ })
        now value uid cid ttl scope =
      handle_resolve_action get_exec
        (.stored { s with pending_action := some ⟨X, args, field⟩ })
        now value uid cid ttl scope := by
  have hexp : (match s.updated_at with
      | UpdatedAt.iso t => decide (now - t > 60 * ttl)
      | UpdatedAt.bad => true) = false := by
    simp [hupd, hlive]
  simp only [handle_resolve_action, get_and_clear_pending_action, get_session,
    is_expired]
  simp [hexp, bind, Except.bind, empty_session, save_session,
    strip_functions_append X, strip_functions_of_no_pre X hX]

/-- Witness for C10's amended theorem at concrete inputs. -/
theorem resolve_action_functions_alias_witness :
    ("functions.".data.isPrefixOf "book".data = false) ∧
    handle_resolve_action exec_echo_lookup
        (.stored { sess0 with pending_action := some ⟨"functions." ++ "book",
          [("title", JValue.str "m")], "day"⟩ }) 5 "mon" "u" "c" 30 "default" =
      handle_resolve_action exec_echo_lookup
        (.stored { sess0 with pending_action := some ⟨"book",
          [("title", JValue.str "m")], "day"⟩ }) 5 "mon" "u" "c" 30 "default" :=
  ⟨by decide,
    resolve_action_functions_alias exec_echo_lookup sess0 "book"
      [("title", JValue.str "m")] "day" "mon" "u" "c" 5 0 30 "default" rfl
      (by decide) (by decide)⟩

/-! ## Claim C6 — pending-action single slot -/

theorem set_pending_action_sets (file : FileContent) (now : Int)
    (uid cid : String) (action : PendingAction) (ttl : Int) (scope : String)
    (f' : FileContent) (h : set_pending_action file now uid cid action ttl scope = .ok f') :
    ∃ s : Session, f' = .stored s ∧ s.pending_action = some action := by
  simp only [set_pending_action] at h
  cases hg : get_session file now uid cid ttl scope with
  | error e =>
    rw [hg] at h
    simp [bind, Except.bind] at h
  | ok sess =>
    rw [hg] at h
    simp only [bind, Except.bind, save_session] at h
    injection h with h
    exact ⟨_, h.symm, rfl⟩

/-- C6: the pending-action slot holds at most one action and is consumed
exactly once: (1) a second `set_pending_action` silently overwrites —
whatever was set before, after the second call the stored pending action
is the second one; (2) `get_and_clear_pending_action` on a live session
with a pending action returns it and persists the cleared session, so an
immediately following call returns none; (3) resolving with no pending
action returns exactly the fixed no-pending response with domain "unknown"
and leaves the stored session file untouched. -/
theorem pending_action_single_slot :
    (∀ (file : FileContent) (now1 now2 : Int) (uid cid : String)
        (a1 a2 : PendingAction) (ttl : Int) (scope : String) (f1 f2 : FileContent),
      set_pending_action file now1 uid cid a1 ttl scope = .ok f1 →
      set_pending_action f1 now2 uid cid a2 ttl scope = .ok f2 →
      ∃ s : Session, f2 = .stored s ∧ s.pending_action = some a2) ∧
    (∀ (s : Session) (t now1 now2 : Int) (uid cid : String) (a : PendingAction)
        (ttl : Int) (scope : String),
      s.updated_at = .iso t → s.pending_action = some a →
      ¬ (now1 - t > 60 * ttl) → ¬ (now2 - now1 > 60 * ttl) →
      get_and_clear_pending_action (.stored s) now1 uid cid ttl scope =
        .ok (some a, .stored { s with
          session_scope := py_or_str scope "default"
          pending_action := none
          updated_at := .iso now1 }) ∧
      get_and_clear_pending_action
          (.stored { s with
            session_scope := py_or_str scope "default"
            pending_action := none
            updated_at := .iso now1 }) now2 uid cid ttl scope =
        .ok (none, .stored { s with
          session_scope := py_or_str scope "default"
          pending_action := none
          updated_at := .iso now1 })) ∧
    (∀ (get_exec : String → Option ExecFn) (file : FileContent) (now : Int)
        (value uid cid : String) (ttl : Int) (scope : String) (sess : Session),
      get_session file now uid cid ttl scope = .ok sess →
      sess.pending_action = none →
      handle_resolve_action get_exec file now value uid cid ttl scope =
        .ok (⟨"처리할 대기 작업이 없습니다.", "unknown"⟩, file)) := by
  refine ⟨?_, ?_, ?_⟩
  · intro file now1 now2 uid cid a1 a2 ttl scope f1 f2 h1 h2
    exact set_pending_action_sets f1 now2 uid cid a2 ttl scope f2 h2
  · intro s t now1 now2 uid cid a ttl scope hupd hp h1 h2
    have hexp1 : is_expired s now1 ttl = false := by
      simp [is_expired, hupd, h1]
    constructor
    · simp [get_and_clear_pending_action, get_session, hexp1, hp, bind, Except.bind,
        save_session]
    · have hexp2 : is_expired { s with
          session_scope := py_or_str scope "default"
          pending_action := none
          updated_at := UpdatedAt.iso now1 } now2 ttl = false := by
        simp [is_expired, h2]
      simp [get_and_clear_pending_action, get_session, hexp2, bind, Except.bind,
        save_session]
  · intro get_exec file now value uid cid ttl scope sess hget hp
    simp [handle_resolve_action, get_and_clear_pending_action, hget, hp, bind,
      Except.bind]

/-- Witness for C6 at concrete inputs. -/
theorem pending_action_single_slot_witness :
    (∃ s : Session, set_pending_action
        (match set_pending_action (.stored sess0) 1 "u" "c"
            ⟨"book", [], "day"⟩ 30 "default" with
          | .ok f1 => f1
          | .error _ => .absent) 2 "u" "c" ⟨"cancel", [], "why"⟩ 30 "default" =
        .ok (.stored s) ∧ s.pending_action = some ⟨"cancel", [], "why"⟩) ∧
    get_and_clear_pending_action (.stored (pend_session "book")) 5 "u" "c" 30 "default" =
      .ok (some ⟨"book", [("title", JValue.str "m")], "day"⟩,
        .stored { pend_session "book" with
          session_scope := "default"
          pending_action := none
          updated_at := .iso 5 }) ∧
    handle_resolve_action exec_echo_lookup (.stored sess0) 5 "mon" "u" "c" 30 "default" =
      .ok (⟨"처리할 대기 작업이 없습니다.", "unknown"⟩, .stored sess0) := by
  refine ⟨?_, ?_, ?_⟩
  · obtain ⟨s, hs, hpa⟩ := pending_action_single_slot.1 (.stored sess0) 1 2 "u" "c"
      ⟨"book", [], "day"⟩ ⟨"cancel", [], "why"⟩ 30 "default" _ _ rfl rfl
    exact ⟨s, by rw [← hs]; rfl, hpa⟩
  · have h := (pending_action_single_slot.2.1 (pend_session "book") 0 5 6 "u" "c"
      ⟨"book", [("title", JValue.str "m")], "day"⟩ 30 "default" rfl rfl
      (by decide) (by decide)).1
    simpa using h
  · exact pending_action_single_slot.2.2 exec_echo_lookup (.stored sess0) 5 "mon" "u" "c"
      30 "default" sess0 rfl rfl

/-! ## Claim C5 — message window bound -/

theorem take_append_take {α : Type} (n : Nat) (X Y : List α) :
    (X ++ Y.take n).take n = (X ++ Y).take n := by
  rw [List.take_append_eq_append_take, List.take_append_eq_append_take, List.take_take]
  congr 1
  congr 1
  omega

theorem last_n_reverse {α : Type} (n : Nat) (l : List α) :
    last_n n l = (l.reverse.take n).reverse := by
  unfold last_n
  rw [← List.reverse_reverse (l.drop (l.length - n))]
  congr 1
  rw [List.reverse_drop]
  rw [List.take_eq_take]
  simp
  omega

theorem last_n_append_last_n {α : Type} (n : Nat) (A B : List α) :
    last_n n (last_n n A ++ B) = last_n n (A ++ B) := by
  rw [last_n_reverse n (last_n n A ++ B), last_n_reverse n (A ++ B)]
  congr 1
  rw [List.reverse_append, List.reverse_append]
  rw [last_n_reverse n A, List.reverse_reverse]
  exact take_append_take n B.reverse A.reverse

theorem turn_pairs_length (steps : List UpdStep) :
    (turn_pairs steps).length = 2 * steps.length := by
  induction steps with
  | nil => rfl
  | cons st rest ih =>
    simp only [turn_pairs, List.length_cons, ih]
    omega

theorem update_session_live (s : Session) (t now : Int) (uid cid domain um am : String)
    (ttl : Int) (scope : String)
    (hupd : s.updated_at = .iso t) (hlive : ¬ (now - t > 60 * ttl)) :
    update_session (.stored s) now uid cid domain um am ttl scope =
      .ok (.stored { s with
        domain := domain
        session_scope := py_or_str scope "default"
        messages := last_n MAX_MESSAGES
          (s.messages ++ [⟨"user", um⟩, ⟨"assistant", String.mk (am.data.take 500)⟩])
        updated_at := .iso now }) := by
  have hexp : is_expired s now ttl = false := by
    simp [is_expired, hupd, hlive]
  simp [update_session, get_session, hexp, bind, Except.bind, save_session]

theorem apply_updates_stored (uid cid : String) (ttl : Int) (scope : String) :
    ∀ (steps : List UpdStep) (s : Session) (t : Int),
      s.updated_at = .iso t → within_ttl ttl t steps = true →
      s.messages.length ≤ MAX_MESSAGES →
      ∃ s' : Session,
        apply_updates uid cid ttl scope (.stored s) steps = .ok (.stored s') ∧
        s'.messages = last_n MAX_MESSAGES (s.messages ++ turn_pairs steps) := by
  intro steps
  induction steps with
  | nil =>
    intro s t hupd hw hlen
    exact ⟨s, rfl, by rw [turn_pairs, List.append_nil, last_n_of_le hlen]⟩
  | cons st rest ih =>
    intro s t hupd hw hlen
    simp only [within_ttl, Bool.and_eq_true, decide_eq_true_eq] at hw
    obtain ⟨hstep, hrest⟩ := hw
    have hcomp := update_session_live s t st.now uid cid st.domain st.user_msg
      st.assistant_msg ttl scope hupd (by omega)
    obtain ⟨s', happ, hmsg⟩ := ih
      { s with
        domain := st.domain
        session_scope := py_or_str scope "default"
        messages := last_n MAX_MESSAGES (s.messages ++
          [⟨"user", st.user_msg⟩, ⟨"assistant", String.mk (st.assistant_msg.data.take 500)⟩])
        updated_at := .iso st.now }
      st.now rfl hrest (by rw [last_n_length]; omega)
    refine ⟨s', ?_, ?_⟩
    · simp only [apply_updates, hcomp, bind, Except.bind]
      exact happ
    · rw [hmsg]
      show last_n MAX_MESSAGES (last_n MAX_MESSAGES (s.messages ++ _) ++ _) = _
      rw [last_n_append_last_n, List.append_assoc]
      rfl

/-- C5: starting from an absent (empty) session file, a sequence of
`update_session` calls all within the TTL leaves the stored message list
equal to the last 20 entries of the full list of appended pairs (each call
appends a user entry then an assistant entry truncated to its first 500
characters and trims to the last 20), so its length is exactly
min(2·N, 20). -/
theorem update_session_window (uid cid : String) (ttl : Int) (scope : String)
    (steps : List UpdStep) (h : steps_within_ttl ttl steps = true) :
    ∃ f : FileContent,
      apply_updates uid cid ttl scope .absent steps = .ok f ∧
      file_messages f = last_n MAX_MESSAGES (turn_pairs steps) ∧
      (file_messages f).length = min (2 * steps.length) MAX_MESSAGES := by
  cases steps with
  | nil => exact ⟨.absent, rfl, rfl, by simp [file_messages]⟩
  | cons st rest =>
    simp only [steps_within_ttl] at h
    have hcomp : update_session .absent st.now uid cid st.domain st.user_msg
        st.assistant_msg ttl scope =
        .ok (.stored { empty_session uid cid scope st.now with
          domain := st.domain
          session_scope := py_or_str scope "default"
          messages := last_n MAX_MESSAGES ([] ++
            [⟨"user", st.user_msg⟩,
              ⟨"assistant", String.mk (st.assistant_msg.data.take 500)⟩])
          updated_at := .iso st.now }) := by
      simp [update_session, get_session, bind, Except.bind, save_session, empty_session]
    obtain ⟨s', happ, hmsg⟩ := apply_updates_stored uid cid ttl scope rest
      { empty_session uid cid scope st.now with
        domain := st.domain
        session_scope := py_or_str scope "default"
        messages := last_n MAX_MESSAGES ([] ++
          [⟨"user", st.user_msg⟩,
            ⟨"assistant", String.mk (st.assistant_msg.data.take 500)⟩])
        updated_at := .iso st.now }
      st.now rfl h (by rw [last_n_length]; simp [MAX_MESSAGES])
    have hmsg2 : s'.messages = last_n MAX_MESSAGES (turn_pairs (st :: rest)) := by
      rw [hmsg]
      show last_n MAX_MESSAGES (last_n MAX_MESSAGES ([] ++ _) ++ _) = _
      rw [last_n_append_last_n, List.append_assoc]
      rfl
    refine ⟨.stored s', ?_, hmsg2, ?_⟩
    · simp only [apply_updates, hcomp, bind, Except.bind]
      exact happ
    · show s'.messages.length = _
      rw [hmsg2, last_n_length, turn_pairs_length]

/-- Witness for C5 at concrete inputs: two updates 60 seconds apart with a
30-minute TTL yield exactly the four appended entries. -/
theorem update_session_window_witness :
    (∃ f : FileContent,
      apply_updates "u" "c" 30 "default" .absent upd_steps = .ok f ∧
      file_messages f = last_n MAX_MESSAGES (turn_pairs upd_steps) ∧
      (file_messages f).length = min (2 * upd_steps.length) MAX_MESSAGES) ∧
    (apply_updates "u" "c" 30 "default" .absent upd_steps).map file_messages =
      .ok [⟨"user", "hello"⟩, ⟨"assistant", "world"⟩,
        ⟨"user", "again"⟩, ⟨"assistant", "reply"⟩] :=
  ⟨update_session_window "u" "c" 30 "default" upd_steps (by decide), by rfl⟩

/-! ## Branch lemmas for the agent loop

One rewriting lemma per branch of the round body; these drive the proofs of
the loop claims.
-/

theorem chat_round_no_tools {provider : ChatFn} {tool_executor : ExecFn}
    {tools : List JValue} {max_tokens : Nat} {domain now : String}
    {fuel : Nat} {msgs : List ChatMsg} {events : List LearnEvent} {memory : Memory}
    {r : ProviderResult}
    (hr : provider msgs (some tools) max_tokens (0.4 : Rat) = r)
    (h0 : r.tool_calls.isEmpty = true) :
    chat_round provider tool_executor tools max_tokens domain now fuel msgs events memory
      = ⟨⟨strip_markdown_val (content_get r.content ""), none, events⟩,
          memory, 1, [], false, r.content⟩ := by
  rw [chat_round, hr]
  simp [h0]

theorem chat_round_learn_only {provider : ChatFn} {tool_executor : ExecFn}
    {tools : List JValue} {max_tokens : Nat} {domain now : String}
    {fuel : Nat} {msgs : List ChatMsg} {events : List LearnEvent} {memory : Memory}
    {r : ProviderResult} {lc : ToolCall}
    (hr : provider msgs (some tools) max_tokens (0.4 : Rat) = r)
    (h0 : r.tool_calls.isEmpty = false)
    (hl : r.tool_calls.find? (fun tc => tc.name == LEARN_RULE) = some lc)
    (hrem : r.tool_calls.filter (fun tc => tc.name ≠ LEARN_RULE) = []) :
    chat_round provider tool_executor tools max_tokens domain now fuel msgs events memory
      = ⟨⟨strip_markdown (py_or (content_get r.content "")
            ("규칙을 학습했습니다: " ++ jget_str lc.arguments "rule" "")), none,
          events ++ [⟨jget_str lc.arguments "rule" "",
            jget_str lc.arguments "category" "general", py_or_str domain "global", now,
            if (add_rule memory (py_or_str domain "global") (jget_str lc.arguments "rule" "")
                (jget_str lc.arguments "category" "general") now).1.success = true
            then "learned"
            else (add_rule memory (py_or_str domain "global") (jget_str lc.arguments "rule" "")
                (jget_str lc.arguments "category" "general") now).1.reason.getD "skipped"⟩]⟩,
          (add_rule memory (py_or_str domain "global") (jget_str lc.arguments "rule" "")
            (jget_str lc.arguments "category" "general") now).2,
          1, [], false, r.content⟩ := by
  rw [chat_round, hr]
  rw [h0]
  simp only [Bool.false_eq_true, if_false, hl, hrem, List.isEmpty_nil, if_true]

theorem chat_round_learn_choice {provider : ChatFn} {tool_executor : ExecFn}
    {tools : List JValue} {max_tokens : Nat} {domain now : String}
    {fuel : Nat} {msgs : List ChatMsg} {events : List LearnEvent} {memory : Memory}
    {r : ProviderResult} {lc tc : ToolCall}
    (hr : provider msgs (some tools) max_tokens (0.4 : Rat) = r)
    (h0 : r.tool_calls.isEmpty = false)
    (hl : r.tool_calls.find? (fun tc => tc.name == LEARN_RULE) = some lc)
    (hrem : (r.tool_calls.filter (fun tc => tc.name ≠ LEARN_RULE)).isEmpty = false)
    (hc : (r.tool_calls.filter (fun tc => tc.name ≠ LEARN_RULE)).find?
        (fun tc => tc.name == REQUEST_USER_CHOICE) = some tc) :
    chat_round provider tool_executor tools max_tokens domain now fuel msgs events memory
      = ⟨⟨strip_markdown (py_or (content_get r.content "")
            (jget_str tc.arguments "question" "")),
          some (mk_interactive tc.arguments),
          events ++ [⟨jget_str lc.arguments "rule" "",
            jget_str lc.arguments "category" "general", py_or_str domain "global", now,
            if (add_rule memory (py_or_str domain "global") (jget_str lc.arguments "rule" "")
                (jget_str lc.arguments "category" "general") now).1.success = true
            then "learned"
            else (add_rule memory (py_or_str domain "global") (jget_str lc.arguments "rule" "")
                (jget_str lc.arguments "category" "general") now).1.reason.getD "skipped"⟩]⟩,
          (add_rule memory (py_or_str domain "global") (jget_str lc.arguments "rule" "")
            (jget_str lc.arguments "category" "general") now).2,
          1, [], false, r.content⟩ := by
  rw [chat_round, hr]
  rw [h0]
  simp only [Bool.false_eq_true, if_false, hl]
  rw [hrem]
  simp only [Bool.false_eq_true, if_false, hc]

theorem chat_round_choice {provider : ChatFn} {tool_executor : ExecFn}
    {tools : List JValue} {max_tokens : Nat} {domain now : String}
    {fuel : Nat} {msgs : List ChatMsg} {events : List LearnEvent} {memory : Memory}
    {r : ProviderResult} {tc : ToolCall}
    (hr : provider msgs (some tools) max_tokens (0.4 : Rat) = r)
    (h0 : r.tool_calls.isEmpty = false)
    (hl : r.tool_calls.find? (fun tc => tc.name == LEARN_RULE) = none)
    (hc : r.tool_calls.find? (fun tc => tc.name == REQUEST_USER_CHOICE) = some tc) :
    chat_round provider tool_executor tools max_tokens domain now fuel msgs events memory
      = ⟨⟨strip_markdown (py_or (content_get r.content "")
            (jget_str tc.arguments "question" "")),
          some (mk_interactive tc.arguments), events⟩,
          memory, 1, [], false, r.content⟩ := by
  rw [chat_round, hr]
  rw [h0]
  simp only [Bool.false_eq_true, if_false, hl, hc]

theorem chat_round_exec_last {provider : ChatFn} {tool_executor : ExecFn}
    {tools : List JValue} {max_tokens : Nat} {domain now : String}
    {msgs : List ChatMsg} {events : List LearnEvent} {memory : Memory}
    {r : ProviderResult}
    (hr : provider msgs (some tools) max_tokens (0.4 : Rat) = r)
    (h0 : r.tool_calls.isEmpty = false)
    (hl : r.tool_calls.find? (fun tc => tc.name == LEARN_RULE) = none)
    (hc : r.tool_calls.find? (fun tc => tc.name == REQUEST_USER_CHOICE) = none) :
    chat_round provider tool_executor tools max_tokens domain now 0 msgs events memory
      = ⟨⟨strip_markdown_val (content_get r.content EXCEEDED_MSG), none, events⟩,
          memory, 1, r.tool_calls.map (fun tc => (tc.name, tc.arguments)), true,
          r.content⟩ := by
  rw [chat_round, hr]
  rw [h0]
  simp only [Bool.false_eq_true, if_false, hl, hc]

theorem chat_round_exec_step {provider : ChatFn} {tool_executor : ExecFn}
    {tools : List JValue} {max_tokens : Nat} {domain now : String}
    {f : Nat} {msgs : List ChatMsg} {events : List LearnEvent} {memory : Memory}
    {r : ProviderResult}
    (hr : provider msgs (some tools) max_tokens (0.4 : Rat) = r)
    (h0 : r.tool_calls.isEmpty = false)
    (hl : r.tool_calls.find? (fun tc => tc.name == LEARN_RULE) = none)
    (hc : r.tool_calls.find? (fun tc => tc.name == REQUEST_USER_CHOICE) = none) :
    chat_round provider tool_executor tools max_tokens domain now (f + 1) msgs events
        memory =
      (let rest := chat_round provider tool_executor tools max_tokens domain now f
        (msgs ++ assistant_tool_msg r.content r.tool_calls ::
          r.tool_calls.map (tool_result_msg tool_executor)) events memory
      ⟨rest.result, rest.final_memory, rest.provider_calls + 1,
        r.tool_calls.map (fun tc => (tc.name, tc.arguments)) ++ rest.exec_calls,
        rest.exhausted, rest.last_content⟩) := by
  rw [chat_round, hr]
  rw [h0]
  simp only [Bool.false_eq_true, if_false, hl, hc]

theorem chat_round_learn_exec_last {provider : ChatFn} {tool_executor : ExecFn}
    {tools : List JValue} {max_tokens : Nat} {domain now : String}
    {msgs : List ChatMsg} {events : List LearnEvent} {memory : Memory}
    {r : ProviderResult} {lc : ToolCall}
    (hr : provider msgs (some tools) max_tokens (0.4 : Rat) = r)
    (h0 : r.tool_calls.isEmpty = false)
    (hl : r.tool_calls.find? (fun tc => tc.name == LEARN_RULE) = some lc)
    (hrem : (r.tool_calls.filter (fun tc => tc.name ≠ LEARN_RULE)).isEmpty = false)
    (hc : (r.tool_calls.filter (fun tc => tc.name ≠ LEARN_RULE)).find?
        (fun tc => tc.name == REQUEST_USER_CHOICE) = none) :
    chat_round provider tool_executor tools max_tokens domain now 0 msgs events memory
      = ⟨⟨strip_markdown_val (content_get r.content EXCEEDED_MSG), none,
          events ++ [⟨jget_str lc.arguments "rule" "",
            jget_str lc.arguments "category" "general", py_or_str domain "global", now,
            if (add_rule memory (py_or_str domain "global") (jget_str lc.arguments "rule" "")
                (jget_str lc.arguments "category" "general") now).1.success = true
            then "learned"
            else (add_rule memory (py_or_str domain "global") (jget_str lc.arguments "rule" "")
                (jget_str lc.arguments "category" "general") now).1.reason.getD "skipped"⟩]⟩,
          (add_rule memory (py_or_str domain "global") (jget_str lc.arguments "rule" "")
            (jget_str lc.arguments "category" "general") now).2,
          1, (r.tool_calls.filter (fun tc => tc.name ≠ LEARN_RULE)).map
            (fun tc => (tc.name, tc.arguments)), true, r.content⟩ := by
  rw [chat_round, hr]
  rw [h0]
  simp only [Bool.false_eq_true, if_false, hl]
  rw [hrem]
  simp only [Bool.false_eq_true, if_false, hc]

theorem chat_round_learn_exec_step {provider : ChatFn} {tool_executor : ExecFn}
    {tools : List JValue} {max_tokens : Nat} {domain now : String}
    {f : Nat} {msgs : List ChatMsg} {events : List LearnEvent} {memory : Memory}
    {r : ProviderResult} {lc : ToolCall}
    (hr : provider msgs (some tools) max_tokens (0.4 : Rat) = r)
    (h0 : r.tool_calls.isEmpty = false)
    (hl : r.tool_calls.find? (fun tc => tc.name == LEARN_RULE) = some lc)
    (hrem : (r.tool_calls.filter (fun tc => tc.name ≠ LEARN_RULE)).isEmpty = false)
    (hc : (r.tool_calls.filter (fun tc => tc.name ≠ LEARN_RULE)).find?
        (fun tc => tc.name == REQUEST_USER_CHOICE) = none) :
    chat_round provider tool_executor tools max_tokens domain now (f + 1) msgs events
        memory =
      (let rest := chat_round provider tool_executor tools max_tokens domain now f
        (msgs ++ assistant_tool_msg r.content
            (r.tool_calls.filter (fun tc => tc.name ≠ LEARN_RULE)) ::
          (r.tool_calls.filter (fun tc => tc.name ≠ LEARN_RULE)).map
            (tool_result_msg tool_executor))
        (events ++ [⟨jget_str lc.arguments "rule" "",
          jget_str lc.arguments "category" "general", py_or_str domain "global", now,
          if (add_rule memory (py_or_str domain "global") (jget_str lc.arguments "rule" "")
              (jget_str lc.arguments "category" "general") now).1.success = true
          then "learned"
          else (add_rule memory (py_or_str domain "global") (jget_str lc.arguments "rule" "")
              (jget_str lc.arguments "category" "general") now).1.reason.getD "skipped"⟩])
        ((add_rule memory (py_or_str domain "global") (jget_str lc.arguments "rule" "")
          (jget_str lc.arguments "category" "general") now).2)
      ⟨rest.result, rest.final_memory, rest.provider_calls + 1,
        (r.tool_calls.filter (fun tc => tc.name ≠ LEARN_RULE)).map
          (fun tc => (tc.name, tc.arguments)) ++ rest.exec_calls,
        rest.exhausted, rest.last_content⟩) := by
  rw [chat_round, hr]
  rw [h0]
  simp only [Bool.false_eq_true, if_false, hl]
  rw [hrem]
  simp only [Bool.false_eq_true, if_false, hc]

/-! ## Claim C1 — bounded rounds and guaranteed termination -/

theorem chat_round_calls_le (provider : ChatFn) (tool_executor : ExecFn)
    (tools : List JValue) (max_tokens : Nat) (domain now : String) :
    ∀ (fuel : Nat) (msgs : List ChatMsg) (events : List LearnEvent) (memory : Memory),
      (chat_round provider tool_executor tools max_tokens domain now fuel msgs events
        memory).provider_calls ≤ fuel + 1 := by
  intro fuel
  induction fuel with
  | zero =>
    intro msgs events memory
    by_cases h0 : (provider msgs (some tools) max_tokens (0.4 : Rat)).tool_calls.isEmpty
        = true
    · rw [chat_round_no_tools rfl h0]
    · rw [Bool.not_eq_true] at h0
      cases hl : (provider msgs (some tools) max_tokens
          (0.4 : Rat)).tool_calls.find? (fun tc => tc.name == LEARN_RULE) with
      | some lc =>
        by_cases hrem : ((provider msgs (some tools) max_tokens
            (0.4 : Rat)).tool_calls.filter (fun tc => tc.name ≠ LEARN_RULE)).isEmpty = true
        · rw [List.isEmpty_iff] at hrem
          rw [chat_round_learn_only rfl h0 hl hrem]
        · rw [Bool.not_eq_true] at hrem
          cases hc : ((provider msgs (some tools) max_tokens
              (0.4 : Rat)).tool_calls.filter (fun tc => tc.name ≠ LEARN_RULE)).find?
              (fun tc => tc.name == REQUEST_USER_CHOICE) with
          | some tc => rw [chat_round_learn_choice rfl h0 hl hrem hc]
          | none => rw [chat_round_learn_exec_last rfl h0 hl hrem hc]
      | none =>
        cases hc : (provider msgs (some tools) max_tokens
            (0.4 : Rat)).tool_calls.find? (fun tc => tc.name == REQUEST_USER_CHOICE) with
        | some tc => rw [chat_round_choice rfl h0 hl hc]
        | none => rw [chat_round_exec_last rfl h0 hl hc]
  | succ f ih =>
    intro msgs events memory
    by_cases h0 : (provider msgs (some tools) max_tokens (0.4 : Rat)).tool_calls.isEmpty
        = true
    · rw [chat_round_no_tools rfl h0]
      exact Nat.le_add_left 1 (f + 1)
    · rw [Bool.not_eq_true] at h0
      cases hl : (provider msgs (some tools) max_tokens
          (0.4 : Rat)).tool_calls.find? (fun tc => tc.name == LEARN_RULE) with
      | some lc =>
        by_cases hrem : ((provider msgs (some tools) max_tokens
            (0.4 : Rat)).tool_calls.filter (fun tc => tc.name ≠ LEARN_RULE)).isEmpty = true
        · rw [List.isEmpty_iff] at hrem
          rw [chat_round_learn_only rfl h0 hl hrem]
          exact Nat.le_add_left 1 (f + 1)
        · rw [Bool.not_eq_true] at hrem
          cases hc : ((provider msgs (some tools) max_tokens
              (0.4 : Rat)).tool_calls.filter (fun tc => tc.name ≠ LEARN_RULE)).find?
              (fun tc => tc.name == REQUEST_USER_CHOICE) with
          | some tc =>
            rw [chat_round_learn_choice rfl h0 hl hrem hc]
            exact Nat.le_add_left 1 (f + 1)
          | none =>
            rw [chat_round_learn_exec_step rfl h0 hl hrem hc]
            exact Nat.succ_le_succ (ih _ _ _)
      | none =>
        cases hc : (provider msgs (some tools) max_tokens
            (0.4 : Rat)).tool_calls.find? (fun tc => tc.name == REQUEST_USER_CHOICE) with
        | some tc =>
          rw [chat_round_choice rfl h0 hl hc]
          exact Nat.le_add_left 1 (f + 1)
        | none =>
          rw [chat_round_exec_step rfl h0 hl hc]
          exact Nat.succ_le_succ (ih _ _ _)

theorem chat_round_exhausted (provider : ChatFn) (tool_executor : ExecFn)
    (tools : List JValue) (max_tokens : Nat) (domain now : String) :
    ∀ (fuel : Nat) (msgs : List ChatMsg) (events : List LearnEvent) (memory : Memory),
      (chat_round provider tool_executor tools max_tokens domain now fuel msgs events
        memory).exhausted = true →
      (chat_round provider tool_executor tools max_tokens domain now fuel msgs events
          memory).result.interactive = none ∧
      (chat_round provider tool_executor tools max_tokens domain now fuel msgs events
          memory).result.response = strip_markdown_val
        (content_get (chat_round provider tool_executor tools max_tokens domain now fuel
          msgs events memory).last_content EXCEEDED_MSG) := by
  intro fuel
  induction fuel with
  | zero =>
    intro msgs events memory
    by_cases h0 : (provider msgs (some tools) max_tokens (0.4 : Rat)).tool_calls.isEmpty
        = true
    · rw [chat_round_no_tools rfl h0]
      intro h
      simp at h
    · rw [Bool.not_eq_true] at h0
      cases hl : (provider msgs (some tools) max_tokens
          (0.4 : Rat)).tool_calls.find? (fun tc => tc.name == LEARN_RULE) with
      | some lc =>
        by_cases hrem : ((provider msgs (some tools) max_tokens
            (0.4 : Rat)).tool_calls.filter (fun tc => tc.name ≠ LEARN_RULE)).isEmpty = true
        · rw [List.isEmpty_iff] at hrem
          rw [chat_round_learn_only rfl h0 hl hrem]
          intro h
          simp at h
        · rw [Bool.not_eq_true] at hrem
          cases hc : ((provider msgs (some tools) max_tokens
              (0.4 : Rat)).tool_calls.filter (fun tc => tc.name ≠ LEARN_RULE)).find?
              (fun tc => tc.name == REQUEST_USER_CHOICE) with
          | some tc =>
            rw [chat_round_learn_choice rfl h0 hl hrem hc]
            intro h
            simp at h
          | none =>
            rw [chat_round_learn_exec_last rfl h0 hl hrem hc]
            intro _
            exact ⟨rfl, rfl⟩
      | none =>
        cases hc : (provider msgs (some tools) max_tokens
            (0.4 : Rat)).tool_calls.find? (fun tc => tc.name == REQUEST_USER_CHOICE) with
        | some tc =>
          rw [chat_round_choice rfl h0 hl hc]
          intro h
          simp at h
        | none =>
          rw [chat_round_exec_last rfl h0 hl hc]
          intro _
          exact ⟨rfl, rfl⟩
  | succ f ih =>
    intro msgs events memory
    by_cases h0 : (provider msgs (some tools) max_tokens (0.4 : Rat)).tool_calls.isEmpty
        = true
    · rw [chat_round_no_tools rfl h0]
      intro h
      simp at h
    · rw [Bool.not_eq_true] at h0
      cases hl : (provider msgs (some tools) max_tokens
          (0.4 : Rat)).tool_calls.find? (fun tc => tc.name == LEARN_RULE) with
      | some lc =>
        by_cases hrem : ((provider msgs (some tools) max_tokens
            (0.4 : Rat)).tool_calls.filter (fun tc => tc.name ≠ LEARN_RULE)).isEmpty = true
        · rw [List.isEmpty_iff] at hrem
          rw [chat_round_learn_only rfl h0 hl hrem]
          intro h
          simp at h
        · rw [Bool.not_eq_true] at hrem
          cases hc : ((provider msgs (some tools) max_tokens
              (0.4 : Rat)).tool_calls.filter (fun tc => tc.name ≠ LEARN_RULE)).find?
              (fun tc => tc.name == REQUEST_USER_CHOICE) with
          | some tc =>
            rw [chat_round_learn_choice rfl h0 hl hrem hc]
            intro h
            simp at h
          | none =>
            rw [chat_round_learn_exec_step rfl h0 hl hrem hc]
            exact ih _ _ _
      | none =>
        cases hc : (provider msgs (some tools) max_tokens
            (0.4 : Rat)).tool_calls.find? (fun tc => tc.name == REQUEST_USER_CHOICE) with
        | some tc =>
          rw [chat_round_choice rfl h0 hl hc]
          intro h
          simp at h
        | none =>
          rw [chat_round_exec_step rfl h0 hl hc]
          exact ih _ _ _

/-- C1: for every provider behavior and every tool executor the agent loop
makes at most `max_tool_rounds` provider calls (hence it always
terminates — `chat_with_tools_multi` is a total Lean function), and when
the round cap is reached without a terminal branch the result is
non-interactive and its response is the (markdown-stripped) content of the
last provider call, with the fixed "처리 한도를 초과했습니다." message
substituted when the last result carries no content key. -/
theorem chat_with_tools_multi_round_bound (provider : ChatFn) (tool_executor : ExecFn)
    (system_prompt : String) (messages : List ChatMsg) (tools : List JValue)
    (max_tokens max_tool_rounds : Nat) (domain now : String) (memory : Memory)
    (h : 0 < max_tool_rounds) :
    (chat_with_tools_multi provider tool_executor system_prompt messages tools
      max_tokens max_tool_rounds domain now memory).provider_calls ≤ max_tool_rounds ∧
    ((chat_with_tools_multi provider tool_executor system_prompt messages tools
        max_tokens max_tool_rounds domain now memory).exhausted = true →
      (chat_with_tools_multi provider tool_executor system_prompt messages tools
          max_tokens max_tool_rounds domain now memory).result.interactive = none ∧
      (chat_with_tools_multi provider tool_executor system_prompt messages tools
          max_tokens max_tool_rounds domain now memory).result.response =
        strip_markdown_val (content_get
          (chat_with_tools_multi provider tool_executor system_prompt messages tools
            max_tokens max_tool_rounds domain now memory).last_content EXCEEDED_MSG)) := by
  constructor
  · have hle := chat_round_calls_le provider tool_executor tools max_tokens domain now
      (max_tool_rounds - 1) (mk_msg "system" system_prompt :: messages) [] memory
    unfold chat_with_tools_multi
    omega
  · exact chat_round_exhausted provider tool_executor tools max_tokens domain now
      (max_tool_rounds - 1) (mk_msg "system" system_prompt :: messages) [] memory

/-- Witness for C1: an executor/provider pair that ping-pongs tool calls
forever is stopped after exactly 3 provider calls (the default cap) with a
non-interactive result. -/
theorem chat_with_tools_multi_round_bound_witness :
    0 < 3 ∧
    ping_run.provider_calls ≤ 3 ∧
    (ping_run.exhausted = true → ping_run.result.interactive = none ∧
      ping_run.result.response = strip_markdown_val
        (content_get ping_run.last_content EXCEEDED_MSG)) ∧
    ping_run.provider_calls = 3 ∧ ping_run.exhausted = true ∧
    ping_run.result.interactive = none ∧ ping_run.result.response = "thinking" := by
  have h := chat_with_tools_multi_round_bound ping_provider echo_exec "sys"
    [mk_msg "user" "hi"] [] 1500 3 "" "T" memory0 (by decide)
  exact ⟨by decide, h.1, h.2, rfl, rfl, rfl, rfl⟩

/-! ## Claim C2 — deferred-choice short circuit -/

theorem isEmpty_false_of_mem {α : Type} {l : List α} {a : α} (h : a ∈ l) :
    l.isEmpty = false := by
  cases l with
  | nil => cases h
  | cons x xs => rfl

theorem filter_of_no_learn {l : List ToolCall}
    (hl : l.find? (fun c => c.name == LEARN_RULE) = none) :
    l.filter (fun c => c.name ≠ LEARN_RULE) = l := by
  rw [List.filter_eq_self]
  intro a ha
  have h := List.find?_eq_none.mp hl a ha
  simp only [beq_iff_eq] at h
  simpa using h

/-- C2: whenever the round's tool-call batch, after rule-learning removal,
contains a `request_user_choice` call (with the given well-typed
arguments), the loop returns immediately — one provider call, no executor
invocation — and the interactive payload carries the question, the options
truncated to their first 5, `action_id_prefix` = pending_tool + "_" +
field_name, and the pending action {tool, args, field_name} taken from the
call's arguments. -/
theorem chat_round_user_choice (provider : ChatFn) (tool_executor : ExecFn)
    (tools : List JValue) (max_tokens : Nat) (domain now : String)
    (fuel : Nat) (msgs : List ChatMsg) (events : List LearnEvent) (memory : Memory)
    (tc : ToolCall) (q fn pt : String) (opts : List JValue) (pargs : JObj)
    (hfind : ((provider msgs (some tools) max_tokens (0.4 : Rat)).tool_calls.filter
        (fun c => c.name ≠ LEARN_RULE)).find? (fun c => c.name == REQUEST_USER_CHOICE)
      = some tc)
    (hq : jget tc.arguments "question" = some (.str q))
    (hopts : jget tc.arguments "options" = some (.arr opts))
    (hfn : jget tc.arguments "field_name" = some (.str fn))
    (hpt : jget tc.arguments "pending_tool" = some (.str pt))
    (hpa : jget tc.arguments "pending_args" = some (.obj pargs)) :
    (chat_round provider tool_executor tools max_tokens domain now fuel msgs events
        memory).result.interactive =
      some ⟨q, opts.take 5, pt ++ "_" ++ fn, ⟨pt, pargs, fn⟩⟩ ∧
    (chat_round provider tool_executor tools max_tokens domain now fuel msgs events
        memory).provider_calls = 1 ∧
    (chat_round provider tool_executor tools max_tokens domain now fuel msgs events
        memory).exec_calls = [] := by
  have hint : mk_interactive tc.arguments =
      ⟨q, opts.take 5, pt ++ "_" ++ fn, ⟨pt, pargs, fn⟩⟩ := by
    simp [mk_interactive, jget_str, jget_arr, jget_obj, hq, hopts, hfn, hpt, hpa]
  cases hl : (provider msgs (some tools) max_tokens
      (0.4 : Rat)).tool_calls.find? (fun c => c.name == LEARN_RULE) with
  | none =>
    rw [filter_of_no_learn hl] at hfind
    have h0 : (provider msgs (some tools) max_tokens (0.4 : Rat)).tool_calls.isEmpty
        = false := isEmpty_false_of_mem (List.mem_of_find?_eq_some hfind)
    rw [chat_round_choice rfl h0 hl hfind]
    exact ⟨by rw [hint], rfl, rfl⟩
  | some lc =>
    have hmemf := List.mem_of_find?_eq_some hfind
    have hrem : ((provider msgs (some tools) max_tokens
        (0.4 : Rat)).tool_calls.filter (fun c => c.name ≠ LEARN_RULE)).isEmpty = false :=
      isEmpty_false_of_mem hmemf
    have h0 : (provider msgs (some tools) max_tokens (0.4 : Rat)).tool_calls.isEmpty
        = false := isEmpty_false_of_mem (List.mem_of_mem_filter hmemf)
    rw [chat_round_learn_choice rfl h0 hl hrem hfind]
    exact ⟨by rw [hint], rfl, rfl⟩

/-- Witness for C2: a first round with a single deferred-choice call ends
the turn with the expected payload after one provider call. -/
theorem chat_round_user_choice_witness :
    (chat_round choice_provider echo_exec [] 1500 "schedule" "T" 2
        [mk_msg "system" "sys", mk_msg "user" "book it"] [] memory0).result.interactive =
      some ⟨"which day?", [JValue.str "mon", JValue.str "tue"], "book_day",
        ⟨"book", [("title", JValue.str "meeting")], "day"⟩⟩ ∧
    (chat_round choice_provider echo_exec [] 1500 "schedule" "T" 2
        [mk_msg "system" "sys", mk_msg "user" "book it"] [] memory0).provider_calls = 1 ∧
    (chat_round choice_provider echo_exec [] 1500 "schedule" "T" 2
        [mk_msg "system" "sys", mk_msg "user" "book it"] [] memory0).exec_calls = [] :=
  chat_round_user_choice choice_provider echo_exec [] 1500 "schedule" "T" 2
    [mk_msg "system" "sys", mk_msg "user" "book it"] [] memory0
    ⟨"c1", "request_user_choice", choice_args⟩ "which day?" "day" "book"
    [JValue.str "mon", JValue.str "tue"] [("title", JValue.str "meeting")]
    rfl rfl rfl rfl rfl rfl

/-! ## Claim C3 — rule-learning dispatch -/

/-- C3 counterexample: a round whose batch holds two `learn_rule` calls
refutes the claim that each rule-learning call is executed with a learning
event recorded: only the first call is executed (one event, one stored
rule), the second is removed without ever being executed. -/
theorem learn_rule_first_only_cex :
    (learn_two_calls.filter (fun c => c.name == LEARN_RULE)).length = 2 ∧
    learn_two_run.result.learning_events.length = 1 ∧
    learn_two_run.result.learning_events.map LearnEvent.rule = ["rule one"] ∧
    (rules_for learn_two_run.final_memory "global").map MRule.text = ["rule one"] :=
  ⟨rfl, rfl, rfl, rfl⟩

theorem chat_round_exec_no_learn (provider : ChatFn) (tool_executor : ExecFn)
    (tools : List JValue) (max_tokens : Nat) (domain now : String) :
    ∀ (fuel : Nat) (msgs : List ChatMsg) (events : List LearnEvent) (memory : Memory)
      (p : String × JObj),
      p ∈ (chat_round provider tool_executor tools max_tokens domain now fuel msgs events
        memory).exec_calls → p.1 ≠ LEARN_RULE := by
  intro fuel
  induction fuel with
  | zero =>
    intro msgs events memory p hp
    revert hp
    by_cases h0 : (provider msgs (some tools) max_tokens (0.4 : Rat)).tool_calls.isEmpty
        = true
    · rw [chat_round_no_tools rfl h0]
      intro hp
      cases hp
    · rw [Bool.not_eq_true] at h0
      cases hl : (provider msgs (some tools) max_tokens
          (0.4 : Rat)).tool_calls.find? (fun tc => tc.name == LEARN_RULE) with
      | some lc =>
        by_cases hrem : ((provider msgs (some tools) max_tokens
            (0.4 : Rat)).tool_calls.filter (fun tc => tc.name ≠ LEARN_RULE)).isEmpty = true
        · rw [List.isEmpty_iff] at hrem
          rw [chat_round_learn_only rfl h0 hl hrem]
          intro hp
          cases hp
        · rw [Bool.not_eq_true] at hrem
          cases hc : ((provider msgs (some tools) max_tokens
              (0.4 : Rat)).tool_calls.filter (fun tc => tc.name ≠ LEARN_RULE)).find?
              (fun tc => tc.name == REQUEST_USER_CHOICE) with
          | some tc =>
            rw [chat_round_learn_choice rfl h0 hl hrem hc]
            intro hp
            cases hp
          | none =>
            rw [chat_round_learn_exec_last rfl h0 hl hrem hc]
            intro hp
            obtain ⟨tc, htc, rfl⟩ := List.mem_map.mp hp
            have := List.of_mem_filter htc
            simpa using this
      | none =>
        cases hc : (provider msgs (some tools) max_tokens
            (0.4 : Rat)).tool_calls.find? (fun tc => tc.name == REQUEST_USER_CHOICE) with
        | some tc =>
          rw [chat_round_choice rfl h0 hl hc]
          intro hp
          cases hp
        | none =>
          rw [chat_round_exec_last rfl h0 hl hc]
          intro hp
          obtain ⟨tc, htc, rfl⟩ := List.mem_map.mp hp
          have h := List.find?_eq_none.mp hl tc htc
          simpa using h
  | succ f ih =>
    intro msgs events memory p hp
    revert hp
    by_cases h0 : (provider msgs (some tools) max_tokens (0.4 : Rat)).tool_calls.isEmpty
        = true
    · rw [chat_round_no_tools rfl h0]
      intro hp
      cases hp
    · rw [Bool.not_eq_true] at h0
      cases hl : (provider msgs (some tools) max_tokens
          (0.4 : Rat)).tool_calls.find? (fun tc => tc.name == LEARN_RULE) with
      | some lc =>
        by_cases hrem : ((provider msgs (some tools) max_tokens
            (0.4 : Rat)).tool_calls.filter (fun tc => tc.name ≠ LEARN_RULE)).isEmpty = true
        · rw [List.isEmpty_iff] at hrem
          rw [chat_round_learn_only rfl h0 hl hrem]
          intro hp
          cases hp
        · rw [Bool.not_eq_true] at hrem
          cases hc : ((provider msgs (some tools) max_tokens
              (0.4 : Rat)).tool_calls.filter (fun tc => tc.name ≠ LEARN_RULE)).find?
              (fun tc => tc.name == REQUEST_USER_CHOICE) with
          | some tc =>
            rw [chat_round_learn_choice rfl h0 hl hrem hc]
            intro hp
            cases hp
          | none =>
            rw [chat_round_learn_exec_step rfl h0 hl hrem hc]
            intro hp
            rcases List.mem_append.mp hp with hleft | hright
            · obtain ⟨tc, htc, rfl⟩ := List.mem_map.mp hleft
              have := List.of_mem_filter htc
              simpa using this
            · exact ih _ _ _ p hright
      | none =>
        cases hc : (provider msgs (some tools) max_tokens
            (0.4 : Rat)).tool_calls.find? (fun tc => tc.name == REQUEST_USER_CHOICE) with
        | some tc =>
          rw [chat_round_choice rfl h0 hl hc]
          intro hp
          cases hp
        | none =>
          rw [chat_round_exec_step rfl h0 hl hc]
          intro hp
          rcases List.mem_append.mp hp with hleft | hright
          · obtain ⟨tc, htc, rfl⟩ := List.mem_map.mp hleft
            have h := List.find?_eq_none.mp hl tc htc
            simpa using h
          · exact ih _ _ _ p hright

/-- C3 (amended): the FIRST rule-learning call of a round's batch is
executed against Rule Memory immediately (`add_rule` on the turn's domain,
"global" when the domain is empty) with exactly one learning event
recorded; ALL rule-learning calls are removed from the batch before
deferred-choice and ordinary tools are handled (the second and later ones
are dropped without being executed — see the counterexample); a
rule-learning call never reaches the domain tool executor; and if
rule-learning calls were the only calls in the batch, the turn terminates
within the same round with the model's content (or the synthesized
confirmation message) and interactive = none. -/
theorem chat_round_learn_rule :
    (∀ (provider : ChatFn) (tool_executor : ExecFn) (tools : List JValue)
        (max_tokens : Nat) (domain now : String) (fuel : Nat) (msgs : List ChatMsg)
        (events : List LearnEvent) (memory : Memory) (lc : ToolCall),
      (provider msgs (some tools) max_tokens (0.4 : Rat)).tool_calls.isEmpty = false →
      (provider msgs (some tools) max_tokens (0.4 : Rat)).tool_calls.find?
          (fun c => c.name == LEARN_RULE) = some lc →
      (provider msgs (some tools) max_tokens (0.4 : Rat)).tool_calls.filter
          (fun c => c.name ≠ LEARN_RULE) = [] →
      chat_round provider tool_executor tools max_tokens domain now fuel msgs events
          memory =
        ⟨⟨strip_markdown (py_or
              (content_get (provider msgs (some tools) max_tokens (0.4 : Rat)).content "")
              ("규칙을 학습했습니다: " ++ jget_str lc.arguments "rule" "")), none,
            events ++ [⟨jget_str lc.arguments "rule" "",
              jget_str lc.arguments "category" "general", py_or_str domain "global", now,
              if (add_rule memory (py_or_str domain "global")
                  (jget_str lc.arguments "rule" "")
                  (jget_str lc.arguments "category" "general") now).1.success = true
              then "learned"
              else (add_rule memory (py_or_str domain "global")
                  (jget_str lc.arguments "rule" "")
                  (jget_str lc.arguments "category" "general") now).1.reason.getD
                "skipped"⟩]⟩,
          (add_rule memory (py_or_str domain "global") (jget_str lc.arguments "rule" "")
            (jget_str lc.arguments "category" "general") now).2,
          1, [], false,
          (provider msgs (some tools) max_tokens (0.4 : Rat)).content⟩) ∧
    (∀ (provider : ChatFn) (tool_executor : ExecFn) (tools : List JValue)
        (max_tokens : Nat) (domain now : String) (fuel : Nat) (msgs : List ChatMsg)
        (events : List LearnEvent) (memory : Memory) (p : String × JObj),
      p ∈ (chat_round provider tool_executor tools max_tokens domain now fuel msgs
        events memory).exec_calls → p.1 ≠ LEARN_RULE) ∧
    (∀ (provider : ChatFn) (tool_executor : ExecFn) (tools : List JValue)
        (max_tokens : Nat) (domain now : String) (f : Nat) (msgs : List ChatMsg)
        (events : List LearnEvent) (memory : Memory) (lc : ToolCall),
      (provider msgs (some tools) max_tokens (0.4 : Rat)).tool_calls.isEmpty = false →
      (provider msgs (some tools) max_tokens (0.4 : Rat)).tool_calls.find?
          (fun c => c.name == LEARN_RULE) = some lc →
      ((provider msgs (some tools) max_tokens (0.4 : Rat)).tool_calls.filter
          (fun c => c.name ≠ LEARN_RULE)).isEmpty = false →
      ((provider msgs (some tools) max_tokens (0.4 : Rat)).tool_calls.filter
          (fun c => c.name ≠ LEARN_RULE)).find?
          (fun c => c.name == REQUEST_USER_CHOICE) = none →
      chat_round provider tool_executor tools max_tokens domain now (f + 1) msgs events
          memory =
        (let r := provider msgs (some tools) max_tokens (0.4 : Rat)
        let rest := chat_round provider tool_executor tools max_tokens domain now f
          (msgs ++ assistant_tool_msg r.content
              (r.tool_calls.filter (fun tc => tc.name ≠ LEARN_RULE)) ::
            (r.tool_calls.filter (fun tc => tc.name ≠ LEARN_RULE)).map
              (tool_result_msg tool_executor))
          (events ++ [⟨jget_str lc.arguments "rule" "",
            jget_str lc.arguments "category" "general", py_or_str domain "global", now,
            if (add_rule memory (py_or_str domain "global")
                (jget_str lc.arguments "rule" "")
                (jget_str lc.arguments "category" "general") now).1.success = true
            then "learned"
            else (add_rule memory (py_or_str domain "global")
                (jget_str lc.arguments "rule" "")
                (jget_str lc.arguments "category" "general") now).1.reason.getD
              "skipped"⟩])
          ((add_rule memory (py_or_str domain "global") (jget_str lc.arguments "rule" "")
            (jget_str lc.arguments "category" "general") now).2)
        ⟨rest.result, rest.final_memory, rest.provider_calls + 1,
          (r.tool_calls.filter (fun tc => tc.name ≠ LEARN_RULE)).map
            (fun tc => (tc.name, tc.arguments)) ++ rest.exec_calls,
          rest.exhausted, rest.last_content⟩)) := by
  refine ⟨?_, ?_, ?_⟩
  · intro provider tool_executor tools max_tokens domain now fuel msgs events memory lc
      h0 hl hrem
    exact chat_round_learn_only rfl h0 hl hrem
  · intro provider tool_executor tools max_tokens domain now fuel msgs events memory p
    exact chat_round_exec_no_learn provider tool_executor tools max_tokens domain now
      fuel msgs events memory p
  · intro provider tool_executor tools max_tokens domain now f msgs events memory lc
      h0 hl hrem hc
    exact chat_round_learn_exec_step rfl h0 hl hrem hc

/-- Witness for C3's amended theorem at concrete inputs: a learn-only round
and a mixed learn-plus-tool round. -/
theorem chat_round_learn_rule_witness :
    (learn_two_provider [mk_msg "system" "sys"] (some []) 1500
        (0.4 : Rat)).tool_calls.isEmpty = false ∧
    chat_round learn_two_provider echo_exec [] 1500 "" "T" 2 [mk_msg "system" "sys"] []
        memory0 =
      ⟨⟨"규칙을 학습했습니다: rule one", none,
          [⟨"rule one", "preference", "global", "T", "learned"⟩]⟩,
        (add_rule memory0 "global" "rule one" "preference" "T").2, 1, [], false,
        .pynull⟩ ∧
    (∀ p ∈ (chat_round learn_mix_provider echo_exec [] 1500 "fin" "T" 2
        [mk_msg "system" "sys", mk_msg "user" "go"] [] memory0).exec_calls,
      p.1 ≠ LEARN_RULE) ∧
    chat_round learn_mix_provider echo_exec [] 1500 "fin" "T" 1
        [mk_msg "system" "sys", mk_msg "user" "go"] [] memory0 =
      (let r := learn_mix_provider [mk_msg "system" "sys", mk_msg "user" "go"] (some [])
        1500 (0.4 : Rat)
      let rest := chat_round learn_mix_provider echo_exec [] 1500 "fin" "T" 0
        ([mk_msg "system" "sys", mk_msg "user" "go"] ++
          assistant_tool_msg r.content
              (r.tool_calls.filter (fun tc => tc.name ≠ LEARN_RULE)) ::
            (r.tool_calls.filter (fun tc => tc.name ≠ LEARN_RULE)).map
              (tool_result_msg echo_exec))
        ([] ++ [⟨jget_str (⟨"l1", "learn_rule",
            [("rule", JValue.str "r1"), ("category", JValue.str "general")]⟩ :
              ToolCall).arguments "rule" "",
          jget_str (⟨"l1", "learn_rule",
            [("rule", JValue.str "r1"), ("category", JValue.str "general")]⟩ :
              ToolCall).arguments "category" "general", py_or_str "fin" "global", "T",
          if (add_rule memory0 (py_or_str "fin" "global") "r1" "general" "T").1.success
              = true
          then "learned"
          else (add_rule memory0 (py_or_str "fin" "global") "r1" "general"
              "T").1.reason.getD "skipped"⟩])
        ((add_rule memory0 (py_or_str "fin" "global") "r1" "general" "T").2)
      ⟨rest.result, rest.final_memory, rest.provider_calls + 1,
        (r.tool_calls.filter (fun tc => tc.name ≠ LEARN_RULE)).map
          (fun tc => (tc.name, tc.arguments)) ++ rest.exec_calls,
        rest.exhausted, rest.last_content⟩) := by
  refine ⟨rfl, ?_, ?_, ?_⟩
  · have h := chat_round_learn_rule.1 learn_two_provider echo_exec [] 1500 "" "T" 2
      [mk_msg "system" "sys"] [] memory0 ⟨"l1", "learn_rule",
        [("rule", JValue.str "rule one"), ("category", JValue.str "preference")]⟩
      rfl rfl rfl
    rw [h]
    rfl
  · intro p hp
    exact chat_round_learn_rule.2.1 learn_mix_provider echo_exec [] 1500 "fin" "T" 2
      [mk_msg "system" "sys", mk_msg "user" "go"] [] memory0 p hp
  · exact chat_round_learn_rule.2.2 learn_mix_provider echo_exec [] 1500 "fin" "T" 0
      [mk_msg "system" "sys", mk_msg "user" "go"] [] memory0 ⟨"l1", "learn_rule",
        [("rule", JValue.str "r1"), ("category", JValue.str "general")]⟩
      rfl rfl rfl rfl

/-! ## Claim C8 — two-phase domain classification -/

theorem foldl_max_keep (sd : Nat) (d : String) :
    ∀ (rest : List (String × Nat)), (∀ y ∈ rest, y.2 ≤ sd) →
      rest.foldl (fun b y => if y.2 > b.2 then y else b) (d, sd) = (d, sd) := by
  intro rest
  induction rest with
  | nil => intro _; rfl
  | cons y t ih =>
    intro h
    have hy : y.2 ≤ sd := h y (by simp)
    simp only [List.foldl_cons]
    rw [show (if y.2 > (d, sd).2 then y else (d, sd)) = (d, sd) from
      if_neg (by simp; omega)]
    exact ih (fun z hz => h z (by simp [hz]))

theorem foldl_max_reach (sd : Nat) (d : String) :
    ∀ (rest : List (String × Nat)) (b : String × Nat), b.2 < sd → (d, sd) ∈ rest →
      (∀ y ∈ rest, y.1 ≠ d → y.2 < sd) → (∀ y ∈ rest, y.1 = d → y = (d, sd)) →
      rest.foldl (fun b y => if y.2 > b.2 then y else b) b = (d, sd) := by
  intro rest
  induction rest with
  | nil =>
    intro b _ hmem
    cases hmem
  | cons y t ih =>
    intro b hb hmem hlt huniq
    by_cases hy : y = (d, sd)
    · subst hy
      simp only [List.foldl_cons]
      rw [show (if (d, sd).2 > b.2 then (d, sd) else b) = (d, sd) from
        if_pos (by simp; omega)]
      apply foldl_max_keep
      intro z hz
      by_cases hz1 : z.1 = d
      · rw [huniq z (List.mem_cons_of_mem _ hz) hz1]
      · exact Nat.le_of_lt (hlt z (List.mem_cons_of_mem _ hz) hz1)
    · have hy1 : y.1 ≠ d := fun h => hy (huniq y (by simp) h)
      have hy2 : y.2 < sd := hlt y (by simp) hy1
      have hmem' : (d, sd) ∈ t := by
        rcases List.mem_cons.mp hmem with h | h
        · exact absurd h.symm hy
        · exact h
      simp only [List.foldl_cons]
      have hb' : (if y.2 > b.2 then y else b).2 < sd := by
        split
        · exact hy2
        · exact hb
      exact ih _ hb' hmem' (fun z hz => hlt z (by simp [hz]))
        (fun z hz => huniq z (by simp [hz]))

theorem first_max_unique (L : List (String × Nat)) (d : String) (sd : Nat)
    (hmem : (d, sd) ∈ L)
    (hlt : ∀ y ∈ L, y.1 ≠ d → y.2 < sd)
    (huniq : ∀ y ∈ L, y.1 = d → y = (d, sd)) :
    first_max L = some (d, sd) := by
  cases L with
  | nil => cases hmem
  | cons x xs =>
    by_cases hx : x = (d, sd)
    · subst hx
      show some (xs.foldl (fun b y => if y.2 > b.2 then y else b) (d, sd)) = _
      rw [foldl_max_keep]
      intro z hz
      by_cases hz1 : z.1 = d
      · rw [huniq z (by simp [hz]) hz1]
      · exact Nat.le_of_lt (hlt z (by simp [hz]) hz1)
    · have hx1 : x.1 ≠ d := fun h => hx (huniq x (by simp) h)
      have hx2 : x.2 < sd := hlt x (by simp) hx1
      have hmem' : (d, sd) ∈ xs := by
        rcases List.mem_cons.mp hmem with h | h
        · exact absurd h.symm hx
        · exact h
      show some (xs.foldl (fun b y => if y.2 > b.2 then y else b) x) = _
      rw [foldl_max_reach sd d xs x hx2 hmem' (fun z hz => hlt z (by simp [hz]))
        (fun z hz => huniq z (by simp [hz]))]

theorem filter_top_unique (d : String) (sd : Nat) :
    ∀ (L : List (String × Nat)), (d, sd) ∈ L →
      (∀ y ∈ L, y.1 ≠ d → y.2 < sd) → (∀ y ∈ L, y.1 = d → y = (d, sd)) →
      (L.map Prod.fst).Nodup →
      L.filter (fun p => p.2 == sd) = [(d, sd)] := by
  intro L
  induction L with
  | nil => intro hmem; cases hmem
  | cons x xs ih =>
    intro hmem hlt huniq hkeys
    simp only [List.map_cons, List.nodup_cons] at hkeys
    by_cases hx : x = (d, sd)
    · subst hx
      simp only [List.filter_cons, beq_self_eq_true, if_true]
      have hnil : xs.filter (fun p => p.2 == sd) = [] := by
        rw [List.filter_eq_nil_iff]
        intro y hy
        simp only [beq_iff_eq]
        intro hy2
        by_cases hy1 : y.1 = d
        · exact hkeys.1
            (hy1 ▸ (List.mem_map_of_mem Prod.fst hy : y.1 ∈ xs.map Prod.fst))
        · exact absurd hy2 (Nat.ne_of_lt (hlt y (List.mem_cons_of_mem _ hy) hy1))
      rw [hnil]
    · have hx1 : x.1 ≠ d := fun h => hx (huniq x (by simp) h)
      have hx2 : x.2 < sd := hlt x (by simp) hx1
      have hmem' : (d, sd) ∈ xs := by
        rcases List.mem_cons.mp hmem with h | h
        · exact absurd h.symm hx
        · exact h
      have hxne : (x.2 == sd) = false := by
        simp only [beq_eq_false_iff_ne]
        exact Nat.ne_of_lt hx2
      simp only [List.filter_cons, hxne, Bool.false_eq_true, if_false]
      exact ih hmem' (fun z hz => hlt z (by simp [hz]))
        (fun z hz => huniq z (by simp [hz])) hkeys.2

theorem first_max_none (L : List (String × Nat)) :
    first_max L = none ↔ L = [] := by
  cases L <;> simp [first_max]

theorem foldl_max_spec :
    ∀ (t : List (String × Nat)) (b : String × Nat),
      (t.foldl (fun b y => if y.2 > b.2 then y else b) b = b ∨
        t.foldl (fun b y => if y.2 > b.2 then y else b) b ∈ t) ∧
      b.2 ≤ (t.foldl (fun b y => if y.2 > b.2 then y else b) b).2 ∧
      ∀ y ∈ t, y.2 ≤ (t.foldl (fun b y => if y.2 > b.2 then y else b) b).2 := by
  intro t
  induction t with
  | nil => intro b; exact ⟨Or.inl rfl, Nat.le_refl _, by simp⟩
  | cons y t ih =>
    intro b
    simp only [List.foldl_cons]
    obtain ⟨hor, hle, hall⟩ := ih (if y.2 > b.2 then y else b)
    refine ⟨?_, ?_, ?_⟩
    · rcases hor with h | h
      · rw [h]
        split
        · exact Or.inr (by simp)
        · exact Or.inl rfl
      · exact Or.inr (List.mem_cons_of_mem _ h)
    · refine Nat.le_trans ?_ hle
      split
      · omega
      · exact Nat.le_refl _
    · intro z hz
      rcases List.mem_cons.mp hz with rfl | hz'
      · refine Nat.le_trans ?_ hle
        split
        · exact Nat.le_refl _
        · omega
      · exact hall z hz'

theorem first_max_le (L : List (String × Nat)) (m : String × Nat)
    (h : first_max L = some m) : m ∈ L ∧ ∀ y ∈ L, y.2 ≤ m.2 := by
  cases L with
  | nil => cases h
  | cons x xs =>
    unfold first_max at h
    injection h with h
    obtain ⟨hor, hle, hall⟩ := foldl_max_spec xs x
    rw [h] at hor hle hall
    constructor
    · rcases hor with h' | h'
      · rw [← h']
        simp
      · exact List.mem_cons_of_mem _ h'
    · intro y hy
      rcases List.mem_cons.mp hy with rfl | hy'
      · exact hle
      · exact hall y hy'

theorem two_mem_one_lt {α : Type} (l : List α) (a b : α) (ha : a ∈ l) (hb : b ∈ l)
    (hne : a ≠ b) : 1 < l.length := by
  rcases List.mem_iff_get.mp ha with ⟨i, rfl⟩
  rcases List.mem_iff_get.mp hb with ⟨j, rfl⟩
  have hij : i ≠ j := by
    rintro rfl
    exact hne rfl
  have hi := i.2
  have hj := j.2
  omega

theorem score_table_mem (msg_lower : String) (dk : List (String × List String))
    (p : String × Nat) :
    p ∈ score_table msg_lower dk ↔
      ∃ kws, (p.1, kws) ∈ dk ∧ keyword_score msg_lower kws = p.2 ∧ 0 < p.2 := by
  unfold score_table
  rw [List.mem_filterMap]
  constructor
  · rintro ⟨⟨name, kws⟩, hmem, hf⟩
    simp only at hf
    by_cases hs : keyword_score msg_lower kws > 0
    · rw [if_pos hs] at hf
      injection hf with hf
      rw [← hf]
      exact ⟨kws, hmem, rfl, hs⟩
    · rw [if_neg hs] at hf
      cases hf
  · rintro ⟨kws, hmem, hscore, hpos⟩
    refine ⟨(p.1, kws), hmem, ?_⟩
    simp only
    rw [hscore, if_pos hpos]

theorem score_table_keys_sublist (msg_lower : String) :
    ∀ (dk : List (String × List String)),
      List.Sublist ((score_table msg_lower dk).map Prod.fst) (dk.map Prod.fst) := by
  intro dk
  induction dk with
  | nil => simp [score_table]
  | cons x xs ih =>
    unfold score_table at ih ⊢
    simp only [List.filterMap_cons]
    split
    · exact List.Sublist.cons _ ih
    · next val heq =>
      have hfst : val.1 = x.1 := by
        split at heq
        · injection heq with heq
          rw [← heq]
        · cases heq
      simp only [List.map_cons, hfst]
      exact List.Sublist.cons₂ _ ih

theorem nodup_key_eq {β : Type} :
    ∀ (L : List (String × β)), (L.map Prod.fst).Nodup →
      ∀ a b : String × β, a ∈ L → b ∈ L → a.1 = b.1 → a = b := by
  intro L
  induction L with
  | nil =>
    intro _ a b ha
    cases ha
  | cons x xs ih =>
    intro hkeys a b ha hb hab
    simp only [List.map_cons, List.nodup_cons] at hkeys
    rcases List.mem_cons.mp ha with rfl | ha' <;>
      rcases List.mem_cons.mp hb with rfl | hb'
    · rfl
    · exact absurd (hab ▸ List.mem_map_of_mem Prod.fst hb') hkeys.1
    · exact absurd (hab ▸ List.mem_map_of_mem Prod.fst ha') hkeys.1
    · exact ih hkeys.2 a b ha' hb' hab

/-- C8: phase 1 of `classify_domain` returns the unique holder of the
maximal nonzero keyword score directly, with no LLM call; on a tie for the
top score, or when no keyword matched, a single LLM call is made and the
stripped lower-cased response is scanned for the first recognized domain
token in the valid set's iteration order, defaulting to "schedule" when no
token matches. -/
theorem classify_domain_two_phase :
    (∀ (provider : ChatFn) (valid_order : List String) (message : String)
        (dk : List (String × List String)) (d : String) (kws : List String),
      (dk.map Prod.fst).Nodup → (d, kws) ∈ dk →
      0 < keyword_score (py_lower message) kws →
      (∀ p ∈ dk, p.1 ≠ d →
        keyword_score (py_lower message) p.2 < keyword_score (py_lower message) kws) →
      classify_domain provider valid_order message dk = (d, false)) ∧
    (∀ (provider : ChatFn) (valid_order : List String) (message : String)
        (dk : List (String × List String)) (d1 d2 : String) (k1 k2 : List String)
        (s : Nat),
      (d1, k1) ∈ dk → (d2, k2) ∈ dk → d1 ≠ d2 →
      keyword_score (py_lower message) k1 = s →
      keyword_score (py_lower message) k2 = s → 0 < s →
      (∀ p ∈ dk, keyword_score (py_lower message) p.2 ≤ s) →
      classify_domain provider valid_order message dk =
        (classify_phase2 provider valid_order message dk, true)) ∧
    (∀ (provider : ChatFn) (valid_order : List String) (message : String)
        (dk : List (String × List String)),
      (∀ p ∈ dk, keyword_score (py_lower message) p.2 = 0) →
      classify_domain provider valid_order message dk =
        (classify_phase2 provider valid_order message dk, true)) ∧
    (∀ (provider : ChatFn) (valid_order : List String) (message : String)
        (dk : List (String × List String)) (dm : String),
      valid_order.find? (fun v => str_contains (py_lower (py_strip (py_or (content_opt
          (provider [mk_msg "system" classifier_system_msg,
            mk_msg "user" (classifier_user_msg message dk)] none 50
            (0 : Rat)).content) ""))) v) = some dm →
      classify_phase2 provider valid_order message dk = dm) ∧
    (∀ (provider : ChatFn) (valid_order : List String) (message : String)
        (dk : List (String × List String)),
      valid_order.find? (fun v => str_contains (py_lower (py_strip (py_or (content_opt
          (provider [mk_msg "system" classifier_system_msg,
            mk_msg "user" (classifier_user_msg message dk)] none 50
            (0 : Rat)).content) ""))) v) = none →
      classify_phase2 provider valid_order message dk = "schedule") := by
  refine ⟨?_, ?_, ?_, ?_, ?_⟩
  · intro provider valid_order message dk d kws hnd hdk hpos hmax
    have hmemL : (d, keyword_score (py_lower message) kws) ∈
        score_table (py_lower message) dk :=
      (score_table_mem _ _ _).mpr ⟨kws, hdk, rfl, hpos⟩
    have hkeysL : ((score_table (py_lower message) dk).map Prod.fst).Nodup :=
      List.Nodup.sublist (score_table_keys_sublist (py_lower message) dk) hnd
    have hltL : ∀ y ∈ score_table (py_lower message) dk, y.1 ≠ d →
        y.2 < keyword_score (py_lower message) kws := by
      intro y hy hne
      obtain ⟨kws', hmem', hscore, _⟩ := (score_table_mem _ _ _).mp hy
      rw [← hscore]
      exact hmax (y.1, kws') hmem' hne
    have huniqL : ∀ y ∈ score_table (py_lower message) dk, y.1 = d →
        y = (d, keyword_score (py_lower message) kws) := by
      intro y hy h1
      exact nodup_key_eq _ hkeysL y _ hy hmemL h1
    have hfm := first_max_unique _ d _ hmemL hltL huniqL
    have hfilter := filter_top_unique d (keyword_score (py_lower message) kws) _
      hmemL hltL huniqL hkeysL
    simp only [classify_domain]
    rw [hfm]
    simp only [hfilter, List.length_cons, List.length_nil]
    rfl
  · intro provider valid_order message dk d1 d2 k1 k2 s hd1 hd2 hne hs1 hs2 hspos hmax
    have hmem1 : (d1, s) ∈ score_table (py_lower message) dk :=
      (score_table_mem _ _ _).mpr ⟨k1, hd1, hs1, hspos⟩
    have hmem2 : (d2, s) ∈ score_table (py_lower message) dk :=
      (score_table_mem _ _ _).mpr ⟨k2, hd2, hs2, hspos⟩
    cases hfm : first_max (score_table (py_lower message) dk) with
    | none =>
      rw [first_max_none] at hfm
      rw [hfm] at hmem1
      cases hmem1
    | some best =>
      obtain ⟨hbmem, hball⟩ := first_max_le _ best hfm
      have hbtop : best.2 = s := by
        have hup : best.2 ≤ s := by
          obtain ⟨kws', hmem', hscore, _⟩ := (score_table_mem _ _ _).mp hbmem
          rw [← hscore]
          exact hmax (best.1, kws') hmem'
        have hlo : s ≤ best.2 := hball (d1, s) hmem1
        omega
      have hmem1f : (d1, s) ∈ (score_table (py_lower message) dk).filter
          (fun p => p.2 == best.2) := by
        rw [List.mem_filter]
        exact ⟨hmem1, by simp [hbtop]⟩
      have hmem2f : (d2, s) ∈ (score_table (py_lower message) dk).filter
          (fun p => p.2 == best.2) := by
        rw [List.mem_filter]
        exact ⟨hmem2, by simp [hbtop]⟩
      have hlen : 1 < ((score_table (py_lower message) dk).filter
          (fun p => p.2 == best.2)).length :=
        two_mem_one_lt _ (d1, s) (d2, s) hmem1f hmem2f (by simp [hne])
      have hbe : (((score_table (py_lower message) dk).filter
          (fun p => p.2 == best.2)).length == 1) = false := by
        rw [beq_eq_false_iff_ne]
        omega
      simp only [classify_domain]
      rw [hfm]
      simp only [hbe, Bool.false_eq_true, if_false]
  · intro provider valid_order message dk hz
    have hL : score_table (py_lower message) dk = [] := by
      unfold score_table
      rw [List.filterMap_eq_nil_iff]
      intro p hp
      simp only
      rw [hz p hp]
      simp
    simp only [classify_domain, hL]
    rfl
  · intro provider valid_order message dk dm hfind
    simp only [classify_phase2]
    rw [hfind]
  · intro provider valid_order message dk hfind
    simp only [classify_phase2]
    rw [hfind]

/-- Witness for C8 at concrete inputs: a unique-max message, a tied
message, a no-keyword message, and both phase-2 scan outcomes. -/
theorem classify_domain_two_phase_witness :
    classify_domain token_provider ["schedule", "finance"] "set a meeting" kwmap =
      ("schedule", false) ∧
    classify_domain token_provider ["schedule", "finance"] "pay for the meeting" kwmap =
      (classify_phase2 token_provider ["schedule", "finance"] "pay for the meeting"
        kwmap, true) ∧
    classify_domain nonsense_provider ["schedule", "finance"] "zzz" kwmap =
      (classify_phase2 nonsense_provider ["schedule", "finance"] "zzz" kwmap, true) ∧
    classify_phase2 token_provider ["schedule", "finance"] "pay for the meeting" kwmap =
      "finance" ∧
    classify_phase2 nonsense_provider ["schedule", "finance"] "zzz" kwmap =
      "schedule" := by
  refine ⟨?_, ?_, ?_, ?_, ?_⟩
  · exact classify_domain_two_phase.1 token_provider ["schedule", "finance"]
      "set a meeting" kwmap "schedule" ["meeting", "calendar"] (by decide) (by decide)
      (by decide) (by decide)
  · exact classify_domain_two_phase.2.1 token_provider ["schedule", "finance"]
      "pay for the meeting" kwmap "schedule" "finance" ["meeting", "calendar"]
      ["pay", "invoice"] 1 (by decide) (by decide) (by decide) (by decide) (by decide)
      (by decide) (by decide)
  · exact classify_domain_two_phase.2.2.1 nonsense_provider ["schedule", "finance"]
      "zzz" kwmap (by decide)
  · exact classify_domain_two_phase.2.2.2.1 token_provider ["schedule", "finance"]
      "pay for the meeting" kwmap "finance" (by rfl)
  · exact classify_domain_two_phase.2.2.2.2 nonsense_provider ["schedule", "finance"]
      "zzz" kwmap (by rfl)

end Beyondworks
